import Mathlib

/-!
# The Docker observer of the agent: endpoint construction and change handling

A shallow embedding of `internal/observers/docker/docker.go`.

* Go strings are Lean strings, handled through their character lists
  (container ids, port names and protocols are ASCII, one byte per character).
* A run-time panic is an explicit outcome (`Result.panic`).
* The methods are embedded twice: on snapshots whose pointers are all present
  (`changeHandler`, `endpointsForContainer`, `endpointForPort`), and on
  snapshots with their pointers, where following a nil pointer panics
  (`changeHandlerPtr`, `endpointsForContainerPtr`, `endpointForPortPtr`). The
  two agree on snapshots whose pointers are all present (`changeHandlerPtr_toPtr`).
* The callbacks `serviceCallbacks.Removed` and `serviceCallbacks.Added` are
  recorded as the trace of calls made by the handler, in call order.
* Go leaves the order in which `range` visits a map unspecified; each call of
  the handler therefore takes the order of its visits as an input (`RangeOrder`).
* A `map[string]string` is the list of its entries in increasing key order
  (a nil map and an empty map are both the empty list), so that equality of
  lists is the map equality of `reflect.DeepEqual`.
-/

/-- Outcome of Go code that either returns a value or panics. -/
inductive Result (α : Type) where
  | ok (value : α)
  | panic (msg : String)
  deriving DecidableEq, Repr

/-- A `map[string]string`, as its entries in increasing key order. -/
abbrev StringMap := List (String × String)

/-- Map lookup `m[k]`: the zero value `""` when the key is absent. -/
def StringMap.get (m : StringMap) (k : String) : String :=
  match m.find? (fun kv => kv.1 = k) with
  | some kv => kv.2
  | none => ""

/-- Map assignment `m[k] = v`: replaces the entry of `k`, keeps the keys ordered. -/
def StringMap.set (k v : String) : StringMap → StringMap
  | [] => [(k, v)]
  | (k0, v0) :: rest =>
    if k = k0 then (k, v) :: rest
    else if k < k0 then (k, v) :: (k0, v0) :: rest
    else (k0, v0) :: StringMap.set k v rest

/-- The slice expression `s[:n]` on a string: panics when `n` exceeds the length. -/
def sliceTo (s : String) (n : Nat) : Result String :=
  if n ≤ s.length then Result.ok (String.mk (s.data.take n))
  else Result.panic "slice bounds out of range"

namespace strconv

/-- Decimal digits of `n`, least significant first; `fuel` bounds the number of digits. -/
def digitsRev : Nat → Nat → List Char
  | 0, _ => []
  | fuel + 1, n =>
    Nat.digitChar (n % 10) :: (if n / 10 = 0 then [] else digitsRev fuel (n / 10))

/-- The function `strconv.Itoa` on a non-negative int. -/
def Itoa (n : Nat) : String := String.mk (digitsRev (n + 1) n).reverse

/-- The number written by a list of decimal digits, least significant first. -/
def valueRev : List Char → Nat
  | [] => 0
  | c :: rest => (c.toNat - 48) + 10 * valueRev rest

end strconv

namespace strings

/-- The function `strings.ToUpper` (on ASCII text). -/
def ToUpper (s : String) : String := String.mk (s.data.map Char.toUpper)

/-- The function `strings.Join`. -/
def Join (elems : List String) (sep : String) : String := sep.intercalate elems

end strings

namespace nat

/-- Modelled from the spec: the port key `nat.Port` of the Docker client
library, which `contPort` embeds: a 16-bit port number and a protocol. -/
structure Port where
  number : Fin 65536
  proto : String
  deriving DecidableEq, Repr

/-- The method `Port.Int`: the port number. -/
def Port.Int (p : Port) : Nat := p.number.val

/-- The method `Port.Proto`: the protocol. -/
def Port.Proto (p : Port) : String := p.proto

end nat

namespace dtypes

/-- The fields of `ContainerState` read by the observer. -/
structure ContainerState where
  Status : String
  Running : Bool
  Paused : Bool
  deriving DecidableEq, Repr

/-- The fields of the container `Config` read by the observer; `ExposedPorts`
is a set of ports, given as the list of its keys. -/
structure ContainerConfig where
  Hostname : String
  Image : String
  Cmd : List String
  Labels : StringMap
  ExposedPorts : List nat.Port
  deriving DecidableEq, Repr

/-- One network attached to a container. -/
structure EndpointSettings where
  IPAddress : String
  deriving DecidableEq, Repr

/-- One published binding of a container port. -/
structure PortBinding where
  HostIP : String
  HostPort : Fin 65536
  deriving DecidableEq, Repr

/-- Modelled from the spec: the network addresses of a container (`Networks`,
by network name) and its published-port mapping table (`Ports`). -/
structure NetworkSettings where
  Networks : List (String × EndpointSettings)
  Ports : List (nat.Port × List PortBinding)
  deriving DecidableEq, Repr

/-- The container snapshot handed over by the watcher once its pointers are
followed: the base, `State`, `Config`, `NetworkSettings` and the entries of
`Networks` are all present. The snapshot with its pointers, where each of them
may be nil, is `dtypes.ContainerJSONPtr`. -/
structure ContainerJSON where
  ID : String
  Name : String
  State : ContainerState
  Config : ContainerConfig
  NetworkSettings : NetworkSettings
  deriving DecidableEq, Repr

end dtypes

namespace dockercommon

/-- Modelled from the spec: `FindHostMappedPort` (package
`internal/core/common/docker`, whose source is not available) resolves the
host binding of a port through the published-port mapping table of the
container: the host port and host IP of the first binding, `(0, "")` when the
port has none. -/
def FindHostMappedPort (cont : dtypes.ContainerJSON) (exposedPort : nat.Port) : Nat × String :=
  match cont.NetworkSettings.Ports.find? (fun kv => kv.1 = exposedPort) with
  | some (_, binding :: _) => (binding.HostPort.val, binding.HostIP)
  | _ => (0, "")

end dockercommon

namespace services

/-- The orchestration kinds; the observer only uses `DOCKER`. -/
inductive OrchestrationType where
  | KUBERNETES
  | MESOS
  | SWARM
  | DOCKER
  | ECS
  | NONE
  deriving DecidableEq, Repr

/-- Port visibility preference. -/
inductive PortPreference where
  | PRIVATE
  | PUBLIC
  deriving DecidableEq, Repr

/-- Modelled from the spec: the orchestration part of an endpoint. -/
structure Orchestration where
  ID : String
  OrchType : OrchestrationType
  PortPref : PortPreference
  deriving DecidableEq, Repr

/-- Modelled from the spec: `NewOrchestration` fills the three fields. -/
def NewOrchestration (id : String) (orchType : OrchestrationType) (portPref : PortPreference) :
    Orchestration :=
  { ID := id, OrchType := orchType, PortPref := portPref }

/-- The container summary embedded in an endpoint (`services.Container`). -/
structure Container where
  ID : String
  Names : List String
  Image : String
  Command : String
  State : String
  Labels : StringMap
  deriving DecidableEq, Repr

/-- Modelled from the spec: the primary name of a container is the first of its names. -/
def Container.PrimaryName (c : Container) : String :=
  match c.Names with
  | name :: _ => name
  | [] => ""

/-- Modelled from the spec: the core of an endpoint. `Port` is a uint16;
`Configuration` holds each dynamic value by its text. -/
structure EndpointCore where
  ID : String
  Name : String
  Host : String
  PortType : String
  Port : Nat
  DiscoveredBy : String
  MonitorType : String
  Configuration : StringMap
  extraDimensions : StringMap
  deriving DecidableEq, Repr

/-- Modelled from the spec: `NewEndpointCore` sets the identifier, the name,
the observer tag and the dimensions, and leaves the other fields at their zero value. -/
def NewEndpointCore (id name discoveredBy : String) (dims : StringMap) : EndpointCore :=
  { ID := id, Name := name, Host := "", PortType := "", Port := 0, DiscoveredBy := discoveredBy,
    MonitorType := "", Configuration := [], extraDimensions := dims }

/-- The endpoint of a container port (`services.ContainerEndpoint`); `AltPort` is a uint16. -/
structure ContainerEndpoint extends EndpointCore where
  AltPort : Nat
  Container : Container
  Orchestration : Orchestration
  deriving DecidableEq, Repr

end services

/-- The conversion `uint16(n)` of a non-negative int. -/
def uint16 (n : Nat) : Nat := n % 65536

namespace docker

/-- The constant `observerType`. -/
def observerType : String := "docker"

/-- The port identity `contPort`: a port of the container and an optional name. -/
structure contPort where
  Port : nat.Port
  Name : String
  deriving DecidableEq, Repr

/-- The label configuration of one port identity. -/
structure labelConfig where
  MonitorType : String
  Configuration : StringMap
  deriving DecidableEq, Repr

/-- The observer configuration `Config`. -/
structure Config where
  DockerURL : String
  LabelsToDimensions : StringMap
  UseHostnameIfPresent : Bool
  UseHostBindings : Bool
  IgnoreNonHostBindings : Bool
  deriving DecidableEq, Repr

/-- The orders in which the `range` statements of one call visit their maps:
the known ports, the networks of the container and the label-to-dimension
mapping. Each is a rearrangement of the entries of the map. -/
structure RangeOrder where
  ports : List contPort → List contPort
  ports_perm : ∀ l, (ports l).Perm l
  networks : List (String × dtypes.EndpointSettings) → List (String × dtypes.EndpointSettings)
  networks_perm : ∀ l, (networks l).Perm l
  dims : StringMap → StringMap
  dims_perm : ∀ l, (dims l).Perm l

/-- Every map is visited in the order of its entry list. -/
def RangeOrder.inOrder : RangeOrder :=
  { ports := id, ports_perm := fun _ => List.Perm.refl _,
    networks := id, networks_perm := fun _ => List.Perm.refl _,
    dims := id, dims_perm := fun _ => List.Perm.refl _ }

/-- Every map is visited in the reverse order of its entry list. -/
def RangeOrder.reversed : RangeOrder :=
  { ports := List.reverse, ports_perm := fun l => List.reverse_perm l,
    networks := List.reverse, networks_perm := fun l => List.reverse_perm l,
    dims := List.reverse, dims_perm := fun l => List.reverse_perm l }

/-- The observer state `Docker`: its configuration and the endpoints recorded
per container id (the entries of `endpointsByContainerID`, looked up by first match). -/
structure Docker where
  config : Config
  endpointsByContainerID : List (String × List services.ContainerEndpoint)
  deriving DecidableEq, Repr

/-- A call of one of the service callbacks. -/
inductive Callback where
  | Removed (endpoint : services.ContainerEndpoint)
  | Added (endpoint : services.ContainerEndpoint)
  deriving DecidableEq, Repr

/-- Lookup `m[id]` in `endpointsByContainerID`: `none` is the nil slice of an absent key. -/
def lookupEndpoints (m : List (String × List services.ContainerEndpoint)) (id : String) :
    Option (List services.ContainerEndpoint) :=
  match m.find? (fun kv => kv.1 = id) with
  | some kv => some kv.2
  | none => none

/-- The statement `delete(m, id)`. -/
def deleteEndpoints (m : List (String × List services.ContainerEndpoint)) (id : String) :
    List (String × List services.ContainerEndpoint) :=
  m.filter (fun kv => kv.1 ≠ id)

/-- The assignment `m[id] = endpoints`. -/
def storeEndpoints (m : List (String × List services.ContainerEndpoint)) (id : String)
    (endpoints : List services.ContainerEndpoint) :
    List (String × List services.ContainerEndpoint) :=
  (id, endpoints) :: m.filter (fun kv => kv.1 ≠ id)

/-- The comparison `reflect.DeepEqual` of two endpoint slices: a nil slice
(`none`) differs from an empty one, two non-nil slices are compared position by position. -/
def DeepEqual (a b : Option (List services.ContainerEndpoint)) : Bool := decide (a = b)

/-- The dimensions built at lines 291-296: for each label-to-dimension entry
whose label has a non-empty value on the container, the dimension takes that value. -/
def orchDimsLoop (labels : StringMap) : StringMap → StringMap → StringMap
  | [], orchDims => orchDims
  | (k, dimName) :: rest, orchDims =>
    if labels.get k ≠ "" then orchDimsLoop labels rest (StringMap.set dimName (labels.get k) orchDims)
    else orchDimsLoop labels rest orchDims

/-- The identifier built at lines 286-289 for a port number and a name. -/
def endpointID (primaryName id12 : String) (port : Nat) (name : String) : String :=
  if name ≠ "" then primaryName ++ "-" ++ id12 ++ "-" ++ strconv.Itoa port ++ "-" ++ name
  else primaryName ++ "-" ++ id12 ++ "-" ++ strconv.Itoa port

/-- The method `endpointForPort`: `ok none` is the nil result. -/
def endpointForPort (ord : RangeOrder) (config : Config) (portObj : contPort)
    (cont : dtypes.ContainerJSON) (serviceContainer : services.Container) :
    Result (Option services.ContainerEndpoint) :=
  let port := portObj.Port.Int
  let protocol := portObj.Port.Proto
  let mapped := dockercommon.FindHostMappedPort cont portObj.Port
  let mappedPort := mapped.1
  let mappedIP := mapped.2
  if config.IgnoreNonHostBindings = true ∧ mappedPort = 0 ∧ mappedIP = "" then
    Result.ok none
  else
    match sliceTo cont.ID 12 with
    | Result.panic msg => Result.panic msg
    | Result.ok id12 =>
      let id0 := serviceContainer.PrimaryName ++ "-" ++ id12 ++ "-" ++ strconv.Itoa port
      let id := if portObj.Name ≠ "" then id0 ++ "-" ++ portObj.Name else id0
      let orchDims := orchDimsLoop cont.Config.Labels (ord.dims config.LabelsToDimensions) []
      let endpoint0 : services.ContainerEndpoint :=
        { toEndpointCore := services.NewEndpointCore id portObj.Name observerType orchDims,
          AltPort := 0,
          Container := serviceContainer,
          Orchestration := services.NewOrchestration "docker" services.OrchestrationType.DOCKER
            services.PortPreference.PRIVATE }
      let endpoint1 : services.ContainerEndpoint :=
        if config.UseHostnameIfPresent = true ∧ cont.Config.Hostname ≠ "" then
          { endpoint0 with Host := cont.Config.Hostname }
        else
          match ord.networks cont.NetworkSettings.Networks with
          | n :: _ => { endpoint0 with Host := n.2.IPAddress }
          | [] => endpoint0
      let endpoint2 : services.ContainerEndpoint :=
        { endpoint1 with PortType := strings.ToUpper protocol }
      if config.UseHostBindings = true ∧ mappedPort ≠ 0 ∧ mappedIP ≠ "" then
        Result.ok (some
          { endpoint2 with
            Orchestration := { endpoint2.Orchestration with PortPref := services.PortPreference.PUBLIC },
            Port := uint16 mappedPort,
            AltPort := uint16 port,
            Host := if mappedIP = "0.0.0.0" then "127.0.0.1" else mappedIP })
      else
        Result.ok (some { endpoint2 with Port := uint16 port, AltPort := uint16 mappedPort })

/-- The guard of line 282: the port is omitted when `IgnoreNonHostBindings`
is set and it has no host mapping. -/
def omittedByPolicy (config : Config) (cont : dtypes.ContainerJSON) (portObj : contPort) : Prop :=
  config.IgnoreNonHostBindings = true ∧
    (dockercommon.FindHostMappedPort cont portObj.Port).1 = 0 ∧
    (dockercommon.FindHostMappedPort cont portObj.Port).2 = ""

instance (config : Config) (cont : dtypes.ContainerJSON) :
    DecidablePred (omittedByPolicy config cont) :=
  fun _ => inferInstanceAs (Decidable (_ ∧ _ ∧ _))

/-- The guard of line 317: the host binding of the port is applied when
`UseHostBindings` is set and both a host port and a host IP are mapped. -/
def hostBindingsApplied (config : Config) (cont : dtypes.ContainerJSON) (portObj : contPort) :
    Prop :=
  config.UseHostBindings = true ∧
    (dockercommon.FindHostMappedPort cont portObj.Port).1 ≠ 0 ∧
    (dockercommon.FindHostMappedPort cont portObj.Port).2 ≠ ""

instance (config : Config) (cont : dtypes.ContainerJSON) :
    DecidablePred (hostBindingsApplied config cont) :=
  fun _ => inferInstanceAs (Decidable (_ ∧ _ ∧ _))

/-- The container summary built at lines 233-240. -/
def serviceContainerOf (cont : dtypes.ContainerJSON) : services.Container :=
  { ID := cont.ID,
    Names := [cont.Name],
    Image := cont.Config.Image,
    Command := strings.Join cont.Config.Cmd " ",
    State := cont.State.Status,
    Labels := cont.Config.Labels }

/-- The label override of lines 262-265. -/
def applyLabelConf (labelConfigs : List (contPort × labelConfig)) (portObj : contPort)
    (endpoint : services.ContainerEndpoint) : services.ContainerEndpoint :=
  match labelConfigs.find? (fun kv => kv.1 = portObj) with
  | some (_, labelConf) =>
    { endpoint with MonitorType := labelConf.MonitorType, Configuration := labelConf.Configuration }
  | none => endpoint

/-- The keys of `knownPorts` (lines 243-251): the identities with a label
configuration and the exposed ports as unnamed identities, each key once. -/
def knownPorts (labelConfigs : List (contPort × labelConfig)) (cont : dtypes.ContainerJSON) :
    List contPort :=
  (labelConfigs.map (fun kv => kv.1) ++
    cont.Config.ExposedPorts.map (fun k => ({ Port := k, Name := "" } : contPort))).dedup

/-- The loop of lines 253-268 over the known ports, in the order of the visit. -/
def endpointsLoop (ord : RangeOrder) (config : Config)
    (labelConfigs : List (contPort × labelConfig)) (cont : dtypes.ContainerJSON)
    (serviceContainer : services.Container) :
    List contPort → List services.ContainerEndpoint → Result (List services.ContainerEndpoint)
  | [], instances => Result.ok instances
  | portObj :: rest, instances =>
    match endpointForPort ord config portObj cont serviceContainer with
    | Result.panic msg => Result.panic msg
    | Result.ok none => endpointsLoop ord config labelConfigs cont serviceContainer rest instances
    | Result.ok (some endpoint) =>
      endpointsLoop ord config labelConfigs cont serviceContainer rest
        (instances ++ [applyLabelConf labelConfigs portObj endpoint])

/-- The element appended to `instances` by one turn of the loop of lines
253-268, if any: the endpoint of the port with its label override. -/
def appendedFor (ord : RangeOrder) (config : Config)
    (labelConfigs : List (contPort × labelConfig)) (cont : dtypes.ContainerJSON)
    (serviceContainer : services.Container) (portObj : contPort) :
    Option services.ContainerEndpoint :=
  match endpointForPort ord config portObj cont serviceContainer with
  | Result.ok (some endpoint) => some (applyLabelConf labelConfigs portObj endpoint)
  | _ => none

/-- The map index `labelConfigs[portObj]`: `none` is the nil of an absent key. -/
def labelConfigFor (labelConfigs : List (contPort × labelConfig)) (portObj : contPort) :
    Option labelConfig :=
  match labelConfigs.find? (fun kv => kv.1 = portObj) with
  | some kv => some kv.2
  | none => none

/-- The endpoints recorded in `endpointsByContainerID`, over all container ids. -/
def recorded (m : List (String × List services.ContainerEndpoint)) :
    Multiset services.ContainerEndpoint :=
  ((m.map (fun kv => kv.2)).flatten : List services.ContainerEndpoint)

/-- The endpoints live at the consumer after a trace of callbacks, `live`
being those live before it: `Added` makes an endpoint live, `Removed` takes
one occurrence of it away. -/
def liveFrom (live : Multiset services.ContainerEndpoint) :
    List Callback → Multiset services.ContainerEndpoint
  | [] => live
  | Callback.Added e :: rest => liveFrom (e ::ₘ live) rest
  | Callback.Removed e :: rest => liveFrom (live.erase e) rest

/-- Every `Removed` of the trace is for an endpoint that is live when it is invoked. -/
def removalsLive (live : Multiset services.ContainerEndpoint) : List Callback → Prop
  | [] => True
  | Callback.Added e :: rest => removalsLive (e ::ₘ live) rest
  | Callback.Removed e :: rest => e ∈ live ∧ removalsLive (live.erase e) rest

section

/- The label parser `getConfigLabels` of the package, whose source file is not
available, is a parameter: from the labels of a container, the label
configuration of each port identity. -/
variable (getConfigLabels : StringMap → List (contPort × labelConfig))

/-- The method `endpointsForContainer`. -/
def endpointsForContainer (ord : RangeOrder) (config : Config) (cont : dtypes.ContainerJSON) :
    Result (List services.ContainerEndpoint) :=
  if cont.State.Running = true ∧ cont.State.Paused = false then
    let serviceContainer := serviceContainerOf cont
    let labelConfigs := getConfigLabels cont.Config.Labels
    endpointsLoop ord config labelConfigs cont serviceContainer
      (ord.ports (knownPorts labelConfigs cont)) []
  else
    Result.ok []

/-- Lines 205-208 of `changeHandler`: the slice `newEndpoints` (nil when `new` is nil). -/
def newEndpointsOf (ord : RangeOrder) (config : Config) (new : Option dtypes.ContainerJSON) :
    Result (Option (List services.ContainerEndpoint)) :=
  match new with
  | none => Result.ok none
  | some n =>
    match endpointsForContainer getConfigLabels ord config n with
    | Result.panic msg => Result.panic msg
    | Result.ok newEndpoints => Result.ok (some newEndpoints)

/-- Lines 200-203 of `changeHandler`: the slice `oldEndpoints` (nil when `old` is nil). -/
def oldEndpointsOf (docker : Docker) (old : Option dtypes.ContainerJSON) :
    Option (List services.ContainerEndpoint) :=
  match old with
  | some o => lookupEndpoints docker.endpointsByContainerID o.ID
  | none => none

/-- Lines 200-203 of `changeHandler`: the map once the entry of `old.ID` is deleted. -/
def afterDelete (docker : Docker) (old : Option dtypes.ContainerJSON) :
    List (String × List services.ContainerEndpoint) :=
  match old with
  | some o => deleteEndpoints docker.endpointsByContainerID o.ID
  | none => docker.endpointsByContainerID

/-- Lines 210-225 of `changeHandler`: the callbacks invoked for the two slices, in order. -/
def notify (oldEndpoints newEndpoints : Option (List services.ContainerEndpoint)) :
    List Callback :=
  if DeepEqual newEndpoints oldEndpoints = true then []
  else
    (oldEndpoints.getD []).map Callback.Removed ++ (newEndpoints.getD []).map Callback.Added

/-- The method `changeHandler`: the state after the call and the callbacks invoked, in order. -/
def changeHandler (ord : RangeOrder) (docker : Docker)
    (old new : Option dtypes.ContainerJSON) : Result (Docker × List Callback) :=
  let oldEndpoints := oldEndpointsOf docker old
  match new with
  | none =>
    Result.ok ({ docker with endpointsByContainerID := afterDelete docker old },
      notify oldEndpoints none)
  | some n =>
    match endpointsForContainer getConfigLabels ord docker.config n with
    | Result.panic msg => Result.panic msg
    | Result.ok newEndpoints =>
      Result.ok
        ({ docker with
            endpointsByContainerID := storeEndpoints (afterDelete docker old) n.ID newEndpoints },
          notify oldEndpoints (some newEndpoints))

/-- One call of `changeHandler` by the watcher: the transition `(old, new)`
and the visiting order of the call. -/
structure Call where
  ord : RangeOrder
  old : Option dtypes.ContainerJSON
  new : Option dtypes.ContainerJSON

/-- The calls a watcher makes on one container at a time: an update keeps the
id (`old.ID = new.ID`), and a start (`old` nil) is for an id that is not recorded. -/
def admissibleCall (docker : Docker) (old new : Option dtypes.ContainerJSON) : Bool :=
  match old, new with
  | some o, some n => decide (o.ID = n.ID)
  | none, some n => decide (lookupEndpoints docker.endpointsByContainerID n.ID = none)
  | _, none => true

/-- A sequence of calls of `changeHandler`, each on the state left by the
previous one: the final state and the callbacks invoked over the whole
sequence, in order. A panic ends the run. -/
def runCalls : Docker → List Call → Result (Docker × List Callback)
  | docker, [] => Result.ok (docker, [])
  | docker, c :: rest =>
    match changeHandler getConfigLabels c.ord docker c.old c.new with
    | Result.panic msg => Result.panic msg
    | Result.ok (docker1, callbacks) =>
      match runCalls docker1 rest with
      | Result.panic msg => Result.panic msg
      | Result.ok (docker2, callbacks2) => Result.ok (docker2, callbacks ++ callbacks2)

/-- Every call of the sequence is admissible in the state in which it is made. -/
def admissibleCalls : Docker → List Call → Bool
  | _, [] => true
  | docker, c :: rest =>
    admissibleCall docker c.old c.new &&
      match changeHandler getConfigLabels c.ord docker c.old c.new with
      | Result.panic _ => true
      | Result.ok (docker1, _) => admissibleCalls docker1 rest

end

end docker

/-! ## The snapshot with its pointers

In Go the embedded base of `dtypes.ContainerJSON`, its `State`, its `Config`,
its `NetworkSettings` and the entries of `Networks` are pointers, and following
a nil pointer panics. `dtypes.ContainerJSON` above is the snapshot once every
pointer is followed; `dtypes.ContainerJSONPtr` below is the snapshot with its
pointers, and the functions ending in `Ptr` are the methods of the observer on
it, each pointer being followed where the code follows it. -/

/-- Following a pointer: a nil pointer panics. -/
def deref {α : Type} : Option α → Result α
  | some a => Result.ok a
  | none => Result.panic "invalid memory address or nil pointer dereference"

namespace dtypes

/-- The embedded `*ContainerJSONBase`; its `State` is a pointer. -/
structure ContainerJSONBase where
  ID : String
  Name : String
  State : Option ContainerState
  deriving DecidableEq, Repr

/-- The `NetworkSettings` of a container, the entries of `Networks` being pointers. -/
structure NetworkSettingsPtr where
  Networks : List (String × Option EndpointSettings)
  Ports : List (nat.Port × List PortBinding)
  deriving DecidableEq, Repr

/-- The struct `dtypes.ContainerJSON` with its pointers: `none` is nil. -/
structure ContainerJSONPtr where
  ContainerJSONBase : Option ContainerJSONBase
  Config : Option ContainerConfig
  NetworkSettings : Option NetworkSettingsPtr
  deriving DecidableEq, Repr

/-- The snapshot with pointers of a snapshot whose pointers are all followed. -/
def ContainerJSON.toPtr (cont : ContainerJSON) : ContainerJSONPtr :=
  { ContainerJSONBase := some { ID := cont.ID, Name := cont.Name, State := some cont.State },
    Config := some cont.Config,
    NetworkSettings := some
      { Networks := cont.NetworkSettings.Networks.map (fun kv => (kv.1, some kv.2)),
        Ports := cont.NetworkSettings.Ports } }

end dtypes

namespace dockercommon

/-- The host binding of a port in a published-port mapping table: the host
port and host IP of the first binding, `(0, "")` when the port has none. -/
def hostBinding (ports : List (nat.Port × List dtypes.PortBinding)) (exposedPort : nat.Port) :
    Nat × String :=
  match ports.find? (fun kv => kv.1 = exposedPort) with
  | some (_, binding :: _) => (binding.HostPort.val, binding.HostIP)
  | _ => (0, "")

/-- Modelled from the spec: `FindHostMappedPort` on the snapshot with
pointers; it reads `cont.NetworkSettings.Ports` and so follows `NetworkSettings`. -/
def FindHostMappedPortPtr (cont : dtypes.ContainerJSONPtr) (exposedPort : nat.Port) :
    Result (Nat × String) :=
  match deref cont.NetworkSettings with
  | Result.panic msg => Result.panic msg
  | Result.ok networkSettings => Result.ok (hostBinding networkSettings.Ports exposedPort)

end dockercommon

namespace docker

/-- The visiting orders of one call on a snapshot with pointers: those of
`RangeOrder` and the order of the visit of `Networks` with pointer entries. -/
structure RangeOrderPtr extends RangeOrder where
  networksPtr : List (String × Option dtypes.EndpointSettings) →
    List (String × Option dtypes.EndpointSettings)
  networksPtr_perm : ∀ l, (networksPtr l).Perm l

/-- Every map is visited in the order of its entry list. -/
def RangeOrderPtr.inOrder : RangeOrderPtr :=
  { toRangeOrder := RangeOrder.inOrder,
    networksPtr := id, networksPtr_perm := fun _ => List.Perm.refl _ }

/-- The dimensions of lines 291-296 on a snapshot with pointers: `Config` is
followed at line 293, in the first turn of the loop. -/
def orchDimsPtr (ord : RangeOrderPtr) (config : Config) (cont : dtypes.ContainerJSONPtr) :
    Result StringMap :=
  match ord.dims config.LabelsToDimensions with
  | [] => Result.ok []
  | entry :: rest =>
    match deref cont.Config with
    | Result.panic msg => Result.panic msg
    | Result.ok contConfig => Result.ok (orchDimsLoop contConfig.Labels (entry :: rest) [])

/-- The host of lines 304-313 on a snapshot with pointers, `none` when the
endpoint keeps its empty host: `Config` is followed when
`UseHostnameIfPresent` is set, `NetworkSettings` and the first visited entry
of `Networks` otherwise or when the hostname is empty. -/
def hostPtr (ord : RangeOrderPtr) (config : Config) (cont : dtypes.ContainerJSONPtr) :
    Result (Option String) :=
  let fromNetworks : Result (Option String) :=
    match deref cont.NetworkSettings with
    | Result.panic msg => Result.panic msg
    | Result.ok networkSettings =>
      match ord.networksPtr networkSettings.Networks with
      | [] => Result.ok none
      | n :: _ =>
        match deref n.2 with
        | Result.panic msg => Result.panic msg
        | Result.ok endpointSettings => Result.ok (some endpointSettings.IPAddress)
  if config.UseHostnameIfPresent = true then
    match deref cont.Config with
    | Result.panic msg => Result.panic msg
    | Result.ok contConfig =>
      if contConfig.Hostname ≠ "" then Result.ok (some contConfig.Hostname) else fromNetworks
  else fromNetworks

/-- The method `endpointForPort` on a snapshot with pointers. -/
def endpointForPortPtr (ord : RangeOrderPtr) (config : Config) (portObj : contPort)
    (cont : dtypes.ContainerJSONPtr) (serviceContainer : services.Container) :
    Result (Option services.ContainerEndpoint) :=
  let port := portObj.Port.Int
  let protocol := portObj.Port.Proto
  match dockercommon.FindHostMappedPortPtr cont portObj.Port with
  | Result.panic msg => Result.panic msg
  | Result.ok mapped =>
    let mappedPort := mapped.1
    let mappedIP := mapped.2
    if config.IgnoreNonHostBindings = true ∧ mappedPort = 0 ∧ mappedIP = "" then
      Result.ok none
    else
      match deref cont.ContainerJSONBase with
      | Result.panic msg => Result.panic msg
      | Result.ok base =>
        match sliceTo base.ID 12 with
        | Result.panic msg => Result.panic msg
        | Result.ok id12 =>
          let id0 := serviceContainer.PrimaryName ++ "-" ++ id12 ++ "-" ++ strconv.Itoa port
          let id := if portObj.Name ≠ "" then id0 ++ "-" ++ portObj.Name else id0
          match orchDimsPtr ord config cont with
          | Result.panic msg => Result.panic msg
          | Result.ok orchDims =>
            let endpoint0 : services.ContainerEndpoint :=
              { toEndpointCore :=
                  services.NewEndpointCore id portObj.Name observerType orchDims,
                AltPort := 0,
                Container := serviceContainer,
                Orchestration := services.NewOrchestration "docker"
                  services.OrchestrationType.DOCKER services.PortPreference.PRIVATE }
            match hostPtr ord config cont with
            | Result.panic msg => Result.panic msg
            | Result.ok host =>
              let endpoint1 : services.ContainerEndpoint :=
                match host with
                | some h => { endpoint0 with Host := h }
                | none => endpoint0
              let endpoint2 : services.ContainerEndpoint :=
                { endpoint1 with PortType := strings.ToUpper protocol }
              if config.UseHostBindings = true ∧ mappedPort ≠ 0 ∧ mappedIP ≠ "" then
                Result.ok (some
                  { endpoint2 with
                    Orchestration :=
                      { endpoint2.Orchestration with
                        PortPref := services.PortPreference.PUBLIC },
                    Port := uint16 mappedPort,
                    AltPort := uint16 port,
                    Host := if mappedIP = "0.0.0.0" then "127.0.0.1" else mappedIP })
              else
                Result.ok (some
                  { endpoint2 with Port := uint16 port, AltPort := uint16 mappedPort })

/-- The keys of `knownPorts` (lines 243-251) from the label configurations and
the exposed ports of the container. -/
def knownPortsOf (labelConfigs : List (contPort × labelConfig)) (exposedPorts : List nat.Port) :
    List contPort :=
  (labelConfigs.map (fun kv => kv.1) ++
    exposedPorts.map (fun k => ({ Port := k, Name := "" } : contPort))).dedup

/-- The loop of lines 253-268 on a snapshot with pointers. -/
def endpointsLoopPtr (ord : RangeOrderPtr) (config : Config)
    (labelConfigs : List (contPort × labelConfig)) (cont : dtypes.ContainerJSONPtr)
    (serviceContainer : services.Container) :
    List contPort → List services.ContainerEndpoint → Result (List services.ContainerEndpoint)
  | [], instances => Result.ok instances
  | portObj :: rest, instances =>
    match endpointForPortPtr ord config portObj cont serviceContainer with
    | Result.panic msg => Result.panic msg
    | Result.ok none =>
      endpointsLoopPtr ord config labelConfigs cont serviceContainer rest instances
    | Result.ok (some endpoint) =>
      endpointsLoopPtr ord config labelConfigs cont serviceContainer rest
        (instances ++ [applyLabelConf labelConfigs portObj endpoint])

section

variable (getConfigLabels : StringMap → List (contPort × labelConfig))

/-- The method `endpointsForContainer` on a snapshot with pointers: the base
and `State` are followed at line 232, `Config` at line 236. -/
def endpointsForContainerPtr (ord : RangeOrderPtr) (config : Config)
    (cont : dtypes.ContainerJSONPtr) : Result (List services.ContainerEndpoint) :=
  match deref cont.ContainerJSONBase with
  | Result.panic msg => Result.panic msg
  | Result.ok base =>
    match deref base.State with
    | Result.panic msg => Result.panic msg
    | Result.ok state =>
      if state.Running = true ∧ state.Paused = false then
        match deref cont.Config with
        | Result.panic msg => Result.panic msg
        | Result.ok contConfig =>
          let serviceContainer : services.Container :=
            { ID := base.ID,
              Names := [base.Name],
              Image := contConfig.Image,
              Command := strings.Join contConfig.Cmd " ",
              State := state.Status,
              Labels := contConfig.Labels }
          let labelConfigs := getConfigLabels contConfig.Labels
          endpointsLoopPtr ord config labelConfigs cont serviceContainer
            (ord.ports (knownPortsOf labelConfigs contConfig.ExposedPorts)) []
      else
        Result.ok []

/-- The method `changeHandler` on snapshots with pointers: `old.ID` follows
the base of `old` at line 201, `new.ID` that of `new` at line 207. -/
def changeHandlerPtr (ord : RangeOrderPtr) (docker : Docker)
    (old new : Option dtypes.ContainerJSONPtr) : Result (Docker × List Callback) :=
  let afterOld : Result (Option (List services.ContainerEndpoint) ×
      List (String × List services.ContainerEndpoint)) :=
    match old with
    | none => Result.ok (none, docker.endpointsByContainerID)
    | some o =>
      match deref o.ContainerJSONBase with
      | Result.panic msg => Result.panic msg
      | Result.ok base =>
        Result.ok (lookupEndpoints docker.endpointsByContainerID base.ID,
          deleteEndpoints docker.endpointsByContainerID base.ID)
  match afterOld with
  | Result.panic msg => Result.panic msg
  | Result.ok (oldEndpoints, afterDelete) =>
    match new with
    | none =>
      Result.ok ({ docker with endpointsByContainerID := afterDelete },
        notify oldEndpoints none)
    | some n =>
      match endpointsForContainerPtr getConfigLabels ord docker.config n with
      | Result.panic msg => Result.panic msg
      | Result.ok newEndpoints =>
        match deref n.ContainerJSONBase with
        | Result.panic msg => Result.panic msg
        | Result.ok base =>
          Result.ok
            ({ docker with
                endpointsByContainerID := storeEndpoints afterDelete base.ID newEndpoints },
              notify oldEndpoints (some newEndpoints))

end

/-! ## Sample inputs -/

/-- A label parser that finds no label configuration. -/
def noLabels : StringMap → List (contPort × labelConfig) := fun _ => []

/-- The default configuration: no policy flag set. -/
def defaultConfig : Config :=
  { DockerURL := "unix:///var/run/docker.sock", LabelsToDimensions := [],
    UseHostnameIfPresent := false, UseHostBindings := false, IgnoreNonHostBindings := false }

/-- A running container that exposes 80/tcp and 81/tcp, without host bindings. -/
def web : dtypes.ContainerJSON :=
  { ID := "0123456789abcdef", Name := "web",
    State := { Status := "running", Running := true, Paused := false },
    Config := { Hostname := "", Image := "nginx", Cmd := ["nginx"], Labels := [],
                ExposedPorts := [⟨80, "tcp"⟩, ⟨81, "tcp"⟩] },
    NetworkSettings := { Networks := [("bridge", ⟨"172.17.0.2"⟩)], Ports := [] } }

/-- The endpoint of a port of `web` under the default configuration. -/
def webEndpoint (id : String) (port : Nat) : services.ContainerEndpoint :=
  { ID := id, Name := "", Host := "172.17.0.2", PortType := "TCP", Port := port,
    DiscoveredBy := "docker", MonitorType := "", Configuration := [], extraDimensions := [],
    AltPort := 0,
    Container := { ID := "0123456789abcdef", Names := ["web"], Image := "nginx",
                   Command := "nginx", State := "running", Labels := [] },
    Orchestration := { ID := "docker", OrchType := services.OrchestrationType.DOCKER,
                       PortPref := services.PortPreference.PRIVATE } }

/-- The endpoint of port 80 of `web`. -/
def web80 : services.ContainerEndpoint := webEndpoint "web-0123456789ab-80" 80

/-- The endpoint of port 81 of `web`. -/
def web81 : services.ContainerEndpoint := webEndpoint "web-0123456789ab-81" 81

/-- A configuration with the three policy flags set. -/
def hostConfig : Config :=
  { DockerURL := "unix:///var/run/docker.sock", LabelsToDimensions := [],
    UseHostnameIfPresent := true, UseHostBindings := true, IgnoreNonHostBindings := true }

/-- A running container with a hostname that exposes 6379/tcp, published on
host port 32768 of every host address, and 6380/tcp, not published. -/
def redis : dtypes.ContainerJSON :=
  { ID := "fedcba9876543210", Name := "redis",
    State := { Status := "running", Running := true, Paused := false },
    Config := { Hostname := "cache", Image := "redis", Cmd := ["redis-server"], Labels := [],
                ExposedPorts := [⟨6379, "tcp"⟩, ⟨6380, "tcp"⟩] },
    NetworkSettings :=
      { Networks := [("bridge", ⟨"172.17.0.3"⟩)],
        Ports := [(⟨6379, "tcp"⟩, [{ HostIP := "0.0.0.0", HostPort := 32768 }])] } }

/-- The endpoint of port 6379 of `redis` under `hostConfig`. -/
def redisPublic : services.ContainerEndpoint :=
  { ID := "redis-fedcba987654-6379", Name := "", Host := "127.0.0.1", PortType := "TCP",
    Port := 32768, DiscoveredBy := "docker", MonitorType := "", Configuration := [],
    extraDimensions := [], AltPort := 6379,
    Container := { ID := "fedcba9876543210", Names := ["redis"], Image := "redis",
                   Command := "redis-server", State := "running", Labels := [] },
    Orchestration := { ID := "docker", OrchType := services.OrchestrationType.DOCKER,
                       PortPref := services.PortPreference.PUBLIC } }

/-- The container `web` once it exposes 80/tcp only. -/
def webOnly80 : dtypes.ContainerJSON :=
  { web with Config := { web.Config with ExposedPorts := [⟨80, "tcp"⟩] } }

/-- The observer state once the endpoints of `web` are recorded, port 80 first. -/
def dockerWeb : Docker :=
  { config := defaultConfig, endpointsByContainerID := [("0123456789abcdef", [web80, web81])] }

/-- A running container whose id has fewer than 12 characters. -/
def shortID : dtypes.ContainerJSON := { web with ID := "abc" }

/-- A running name server that exposes port 53 over TCP and over UDP. -/
def dns : dtypes.ContainerJSON :=
  { ID := "aaaabbbbccccdddd", Name := "dns",
    State := { Status := "running", Running := true, Paused := false },
    Config := { Hostname := "", Image := "bind", Cmd := ["named"], Labels := [],
                ExposedPorts := [⟨53, "tcp"⟩, ⟨53, "udp"⟩] },
    NetworkSettings := { Networks := [("bridge", ⟨"172.17.0.4"⟩)], Ports := [] } }

/-- The endpoint of port 53 of `dns` for a protocol, under the default configuration. -/
def dnsEndpoint (portType : String) : services.ContainerEndpoint :=
  { ID := "dns-aaaabbbbcccc-53", Name := "", Host := "172.17.0.4", PortType := portType,
    Port := 53, DiscoveredBy := "docker", MonitorType := "", Configuration := [],
    extraDimensions := [], AltPort := 0,
    Container := { ID := "aaaabbbbccccdddd", Names := ["dns"], Image := "bind",
                   Command := "named", State := "running", Labels := [] },
    Orchestration := { ID := "docker", OrchType := services.OrchestrationType.DOCKER,
                       PortPref := services.PortPreference.PRIVATE } }

/-- A label parser that reads one label: the monitor type of the identity `8080-app`. -/
def appLabels : StringMap → List (contPort × labelConfig) := fun labels =>
  if labels.get "agent.signalfx.com.monitorType.8080-app" ≠ "" then
    [({ Port := ⟨8080, "tcp"⟩, Name := "app" },
      { MonitorType := labels.get "agent.signalfx.com.monitorType.8080-app",
        Configuration := [] })]
  else []

/-- A running container that exposes 8080/tcp and configures a monitor for
the identity `8080-app` by a label. -/
def app : dtypes.ContainerJSON :=
  { ID := "00112233445566778899", Name := "app",
    State := { Status := "running", Running := true, Paused := false },
    Config := { Hostname := "", Image := "app", Cmd := [],
                Labels := [("agent.signalfx.com.monitorType.8080-app", "prometheus-exporter")],
                ExposedPorts := [⟨8080, "tcp"⟩] },
    NetworkSettings := { Networks := [("bridge", ⟨"172.17.0.5"⟩)], Ports := [] } }

/-- The endpoint of an identity of port 8080 of `app`, under the default configuration. -/
def appEndpoint (id name monitorType : String) : services.ContainerEndpoint :=
  { ID := id, Name := name, Host := "172.17.0.5", PortType := "TCP", Port := 8080,
    DiscoveredBy := "docker", MonitorType := monitorType, Configuration := [],
    extraDimensions := [], AltPort := 0,
    Container := { ID := "00112233445566778899", Names := ["app"], Image := "app",
                   Command := "", State := "running",
                   Labels := [("agent.signalfx.com.monitorType.8080-app",
                     "prometheus-exporter")] },
    Orchestration := { ID := "docker", OrchType := services.OrchestrationType.DOCKER,
                       PortPref := services.PortPreference.PRIVATE } }

/-- The endpoint of the labelled identity `8080-app` of `app`. -/
def appNamed : services.ContainerEndpoint :=
  appEndpoint "app-001122334455-8080-app" "app" "prometheus-exporter"

/-- The endpoint of the exposed port 8080 of `app`. -/
def appPlain : services.ContainerEndpoint := appEndpoint "app-001122334455-8080" "" ""

/-- The life of `web`: it starts, stops exposing port 81, and is removed. -/
def webLife : List Call :=
  [{ ord := RangeOrder.inOrder, old := none, new := some web },
   { ord := RangeOrder.reversed, old := some web, new := some webOnly80 },
   { ord := RangeOrder.inOrder, old := some webOnly80, new := none }]

/-- A stopped container with a short id whose `Config` and `NetworkSettings` are nil. -/
def stoppedBare : dtypes.ContainerJSONPtr :=
  { ContainerJSONBase := some
      { ID := "abc", Name := "old",
        State := some { Status := "exited", Running := false, Paused := false } },
    Config := none,
    NetworkSettings := none }

/-- The container `web` with a nil `State`. -/
def webNilState : dtypes.ContainerJSONPtr :=
  { web.toPtr with
    ContainerJSONBase := some { ID := web.ID, Name := web.Name, State := none } }

/-- The container `web` with a nil `NetworkSettings`. -/
def webNilNetworkSettings : dtypes.ContainerJSONPtr :=
  { web.toPtr with NetworkSettings := none }

/-- A running container with a short id whose only port, 6380/tcp, is not
published, and whose one network entry is nil. -/
def unpublishedShort : dtypes.ContainerJSONPtr :=
  { ContainerJSONBase := some
      { ID := "abc", Name := "job",
        State := some { Status := "running", Running := true, Paused := false } },
    Config := some { Hostname := "", Image := "job", Cmd := [], Labels := [],
                     ExposedPorts := [⟨6380, "tcp"⟩] },
    NetworkSettings := some { Networks := [("bridge", none)], Ports := [] } }

end docker

/-! ## Basic facts about the embedded functions -/

namespace docker

theorem uint16_of_lt {n : Nat} (h : n < 65536) : uint16 n = n := Nat.mod_eq_of_lt h

theorem Port_Int_lt (p : nat.Port) : p.Int < 65536 := p.number.isLt

theorem FindHostMappedPort_lt (cont : dtypes.ContainerJSON) (p : nat.Port) :
    (dockercommon.FindHostMappedPort cont p).1 < 65536 := by
  unfold dockercommon.FindHostMappedPort
  split
  · rename_i binding _ _
    exact binding.HostPort.isLt
  · decide

theorem sliceTo_ok {s : String} {n : Nat} (h : n ≤ s.length) :
    sliceTo s n = Result.ok (String.mk (s.data.take n)) := by
  unfold sliceTo; rw [if_pos h]

theorem sliceTo_panic {s : String} {n : Nat} (h : ¬ n ≤ s.length) :
    sliceTo s n = Result.panic "slice bounds out of range" := by
  unfold sliceTo; rw [if_neg h]

theorem endpointForPort_none_iff (ord : RangeOrder) (config : Config) (portObj : contPort)
    (cont : dtypes.ContainerJSON) (sc : services.Container) :
    endpointForPort ord config portObj cont sc = Result.ok none ↔
      omittedByPolicy config cont portObj := by
  unfold endpointForPort omittedByPolicy
  simp only []
  constructor
  · intro h
    by_contra hc
    rw [if_neg hc] at h
    split at h
    · cases h
    · split at h <;> cases h
  · intro h
    rw [if_pos h]

/-- The loop returns exactly when no visited port panics, and then appends one
element per port for which `endpointForPort` gives an endpoint. -/
theorem endpointsLoop_ok_iff (ord : RangeOrder) (config : Config)
    (lc : List (contPort × labelConfig)) (cont : dtypes.ContainerJSON)
    (sc : services.Container) (ps : List contPort) :
    ∀ (acc es : List services.ContainerEndpoint),
      endpointsLoop ord config lc cont sc ps acc = Result.ok es ↔
        ((∀ p ∈ ps, ∃ r, endpointForPort ord config p cont sc = Result.ok r) ∧
          es = acc ++ ps.filterMap (appendedFor ord config lc cont sc)) := by
  induction ps with
  | nil =>
    intro acc es
    simp only [endpointsLoop, List.filterMap_nil, List.append_nil, List.not_mem_nil,
      false_implies, implies_true, true_and]
    constructor
    · intro h; injection h with h; exact h.symm
    · intro h; rw [h]
  | cons p rest ih =>
    intro acc es
    unfold endpointsLoop
    cases hp : endpointForPort ord config p cont sc with
    | panic msg =>
      simp only [List.mem_cons, forall_eq_or_imp, hp]
      constructor
      · intro h; cases h
      · rintro ⟨⟨⟨r, hr⟩, _⟩, _⟩; cases hr
    | ok r =>
      have hex : ∃ r0, Result.ok r = Result.ok (α := Option services.ContainerEndpoint) r0 :=
        ⟨r, rfl⟩
      cases r with
      | none =>
        have : appendedFor ord config lc cont sc p = none := by
          unfold appendedFor; rw [hp]
        simp only [ih, List.mem_cons, forall_eq_or_imp, hp, hex, true_and,
          List.filterMap_cons_none this]
      | some e =>
        have : appendedFor ord config lc cont sc p = some (applyLabelConf lc p e) := by
          unfold appendedFor; rw [hp]
        simp only [ih, List.mem_cons, forall_eq_or_imp, hp, hex, true_and,
          List.filterMap_cons_some this, List.append_assoc, List.singleton_append]

theorem appendedFor_eq_none_iff (ord : RangeOrder) (config : Config)
    (lc : List (contPort × labelConfig)) (cont : dtypes.ContainerJSON)
    (sc : services.Container) (p : contPort)
    (hr : ∃ r, endpointForPort ord config p cont sc = Result.ok r) :
    appendedFor ord config lc cont sc p = none ↔ omittedByPolicy config cont p := by
  obtain ⟨r, hr⟩ := hr
  rw [← endpointForPort_none_iff ord config p cont sc]
  unfold appendedFor
  rw [hr]
  cases r with
  | none => simp
  | some e => simp

theorem appendedFor_eq_some_iff (ord : RangeOrder) (config : Config)
    (lc : List (contPort × labelConfig)) (cont : dtypes.ContainerJSON)
    (sc : services.Container) (p : contPort) (e : services.ContainerEndpoint) :
    appendedFor ord config lc cont sc p = some e ↔
      ∃ e0, endpointForPort ord config p cont sc = Result.ok (some e0) ∧
        e = applyLabelConf lc p e0 := by
  unfold appendedFor
  cases hr : endpointForPort ord config p cont sc with
  | panic msg => simp
  | ok r =>
    cases r with
    | none => simp
    | some e1 =>
      simp only [Option.some.injEq, Result.ok.injEq, exists_eq_left']
      exact eq_comm

theorem forall₂_kept_appended (ord : RangeOrder) (config : Config)
    (lc : List (contPort × labelConfig)) (cont : dtypes.ContainerJSON)
    (sc : services.Container) (ps : List contPort)
    (hr : ∀ p ∈ ps, ∃ r, endpointForPort ord config p cont sc = Result.ok r) :
    List.Forall₂
      (fun p e => ∃ e0, endpointForPort ord config p cont sc = Result.ok (some e0) ∧
        e = applyLabelConf lc p e0)
      (ps.filter (fun p => ¬ omittedByPolicy config cont p))
      (ps.filterMap (appendedFor ord config lc cont sc)) := by
  induction ps with
  | nil => exact List.Forall₂.nil
  | cons p rest ih =>
    have hrest := ih (fun q hq => hr q (List.mem_cons_of_mem _ hq))
    have hp := hr p (List.mem_cons_self _ _)
    cases ha : appendedFor ord config lc cont sc p with
    | none =>
      have hom := (appendedFor_eq_none_iff ord config lc cont sc p hp).1 ha
      rw [List.filterMap_cons_none ha, List.filter_cons_of_neg (by simpa using hom)]
      exact hrest
    | some e =>
      have hom : ¬ omittedByPolicy config cont p := by
        intro hom
        rw [(appendedFor_eq_none_iff ord config lc cont sc p hp).2 hom] at ha
        cases ha
      rw [List.filterMap_cons_some ha, List.filter_cons_of_pos (by simpa using hom)]
      exact List.Forall₂.cons ((appendedFor_eq_some_iff ord config lc cont sc p e).1 ha) hrest

theorem endpointsForContainer_running
    (getConfigLabels : StringMap → List (contPort × labelConfig))
    (ord : RangeOrder) (config : Config) (cont : dtypes.ContainerJSON)
    (hrun : cont.State.Running = true ∧ cont.State.Paused = false) :
    endpointsForContainer getConfigLabels ord config cont =
      endpointsLoop ord config (getConfigLabels cont.Config.Labels) cont (serviceContainerOf cont)
        (ord.ports (knownPorts (getConfigLabels cont.Config.Labels) cont)) [] := by
  unfold endpointsForContainer
  rw [if_pos hrun]

/-- For a running, unpaused container `endpointsForContainer` returns exactly
when no candidate port panics, and the result has one element per port for
which `endpointForPort` gives an endpoint, in the order of the visit. -/
theorem endpointsForContainer_ok_iff
    (getConfigLabels : StringMap → List (contPort × labelConfig))
    (ord : RangeOrder) (config : Config) (cont : dtypes.ContainerJSON)
    (hrun : cont.State.Running = true ∧ cont.State.Paused = false)
    (es : List services.ContainerEndpoint) :
    endpointsForContainer getConfigLabels ord config cont = Result.ok es ↔
      ((∀ p ∈ knownPorts (getConfigLabels cont.Config.Labels) cont,
          ∃ r, endpointForPort ord config p cont (serviceContainerOf cont) = Result.ok r) ∧
        es = (ord.ports (knownPorts (getConfigLabels cont.Config.Labels) cont)).filterMap
          (appendedFor ord config (getConfigLabels cont.Config.Labels) cont
            (serviceContainerOf cont))) := by
  rw [endpointsForContainer_running getConfigLabels ord config cont hrun, endpointsLoop_ok_iff,
    List.nil_append]
  have hperm := ord.ports_perm (knownPorts (getConfigLabels cont.Config.Labels) cont)
  constructor
  · rintro ⟨h1, h2⟩
    exact ⟨fun p hp => h1 p (hperm.symm.subset hp), h2⟩
  · rintro ⟨h1, h2⟩
    exact ⟨fun p hp => h1 p (hperm.subset hp), h2⟩

/-- The number of elements appended over a visit of the known ports is the
number of known ports that the exclusion policy keeps. -/
theorem length_appended (ord : RangeOrder) (config : Config)
    (lc : List (contPort × labelConfig)) (cont : dtypes.ContainerJSON)
    (sc : services.Container)
    (hr : ∀ p ∈ knownPorts lc cont, ∃ r, endpointForPort ord config p cont sc = Result.ok r) :
    ((ord.ports (knownPorts lc cont)).filterMap (appendedFor ord config lc cont sc)).length =
      ((knownPorts lc cont).filter (fun p => ¬ omittedByPolicy config cont p)).length := by
  have hperm := ord.ports_perm (knownPorts lc cont)
  rw [← (forall₂_kept_appended ord config lc cont sc _
    (fun p hp => hr p (hperm.subset hp))).length_eq]
  exact (hperm.filter _).length_eq


end docker

/-! ## Decimal text and identifiers -/

namespace strconv

theorem digitChar_isDigit : ∀ d, d < 10 → (Nat.digitChar d).isDigit = true := by decide

theorem digitChar_toNat : ∀ d, d < 10 → (Nat.digitChar d).toNat - 48 = d := by decide

theorem digitsRev_isDigit (fuel : Nat) : ∀ n, ∀ c ∈ digitsRev fuel n, c.isDigit = true := by
  induction fuel with
  | zero => intro n c hc; simp [digitsRev] at hc
  | succ fuel ih =>
    intro n c hc
    simp only [digitsRev, List.mem_cons] at hc
    rcases hc with hc | hc
    · rw [hc]; exact digitChar_isDigit _ (Nat.mod_lt _ (by decide))
    · split at hc
      · cases hc
      · exact ih _ c hc

theorem valueRev_digitsRev (fuel : Nat) : ∀ n, n < fuel → valueRev (digitsRev fuel n) = n := by
  induction fuel with
  | zero => intro n hn; cases hn
  | succ fuel ih =>
    intro n hn
    simp only [digitsRev, valueRev]
    rw [digitChar_toNat _ (Nat.mod_lt _ (by decide))]
    split
    · rename_i h0
      simp only [valueRev]
      omega
    · rename_i h0
      rw [ih (n / 10) (by omega)]
      omega

theorem Itoa_injective {a b : Nat} (h : Itoa a = Itoa b) : a = b := by
  unfold Itoa at h
  have h1 : (digitsRev (a + 1) a).reverse = (digitsRev (b + 1) b).reverse := by
    injection h
  have h2 := List.reverse_injective h1
  have := congrArg valueRev h2
  rwa [valueRev_digitsRev _ _ (Nat.lt_succ_self a), valueRev_digitsRev _ _ (Nat.lt_succ_self b)]
    at this

theorem Itoa_isDigit (n : Nat) : ∀ c ∈ (Itoa n).data, c.isDigit = true := by
  intro c hc
  unfold Itoa at hc
  exact digitsRev_isDigit _ _ c (List.mem_reverse.1 hc)

end strconv

namespace docker

/-- Two texts made of digits followed by nothing or by a dash and a name are
equal only when the digits and the remainders are equal. -/
theorem digits_append_inj (l1 : List Char) :
    ∀ (l2 s1 s2 : List Char),
      (∀ c ∈ l1, c.isDigit = true) → (∀ c ∈ l2, c.isDigit = true) →
      (s1 = [] ∨ ∃ t, s1 = '-' :: t) → (s2 = [] ∨ ∃ t, s2 = '-' :: t) →
      l1 ++ s1 = l2 ++ s2 → l1 = l2 ∧ s1 = s2 := by
  induction l1 with
  | nil =>
    intro l2 s1 s2 _ h2 hs1 _ h
    cases l2 with
    | nil => exact ⟨rfl, by simpa using h⟩
    | cons c l2 =>
      exfalso
      rcases hs1 with hs1 | ⟨t, hs1⟩
      · rw [hs1] at h; cases h
      · rw [hs1] at h
        simp only [List.nil_append, List.cons_append] at h
        injection h with hc _
        have := h2 c (List.mem_cons_self _ _)
        rw [← hc] at this
        revert this
        decide
  | cons c l1 ih =>
    intro l2 s1 s2 h1 h2 hs1 hs2 h
    cases l2 with
    | nil =>
      exfalso
      rcases hs2 with hs2 | ⟨t, hs2⟩
      · rw [hs2] at h; cases h
      · rw [hs2] at h
        simp only [List.nil_append, List.cons_append] at h
        injection h with hc _
        have := h1 c (List.mem_cons_self _ _)
        rw [hc] at this
        revert this
        decide
    | cons d l2 =>
      simp only [List.cons_append] at h
      injection h with hc ht
      obtain ⟨hl, hs⟩ := ih l2 s1 s2 (fun x hx => h1 x (List.mem_cons_of_mem _ hx))
        (fun x hx => h2 x (List.mem_cons_of_mem _ hx)) hs1 hs2 ht
      exact ⟨by rw [hc, hl], hs⟩

theorem endpointID_data (primaryName id12 : String) (port : Nat) (name : String) :
    (endpointID primaryName id12 port name).data =
      (primaryName ++ "-" ++ id12 ++ "-").data ++
        ((strconv.Itoa port).data ++ (if name = "" then [] else '-' :: name.data)) := by
  unfold endpointID
  by_cases hn : name = ""
  · simp [hn, String.data_append]
  · simp [hn, String.data_append]

theorem endpointID_injective (primaryName id12 : String) (port1 port2 : Nat)
    (name1 name2 : String)
    (h : endpointID primaryName id12 port1 name1 = endpointID primaryName id12 port2 name2) :
    port1 = port2 ∧ name1 = name2 := by
  have hd := congrArg String.data h
  rw [endpointID_data, endpointID_data] at hd
  have hd2 := List.append_cancel_left hd
  have hsuf : ∀ name : String, ((if name = "" then [] else '-' :: name.data) = [] ∨
      ∃ t, (if name = "" then [] else '-' :: name.data) = '-' :: t) := by
    intro name
    by_cases hn : name = ""
    · left; simp [hn]
    · right; exact ⟨name.data, by simp [hn]⟩
  obtain ⟨hl, hs⟩ := digits_append_inj _ _ _ _ (strconv.Itoa_isDigit port1)
    (strconv.Itoa_isDigit port2) (hsuf name1) (hsuf name2) hd2
  refine ⟨strconv.Itoa_injective (String.ext hl), ?_⟩
  by_cases h1 : name1 = "" <;> by_cases h2 : name2 = ""
  · rw [h1, h2]
  · simp [h1, h2] at hs
  · simp [h1, h2] at hs
  · simp only [h1, h2, if_false] at hs
    injection hs with _ hs
    exact String.ext hs

end docker

/-! ## Claims on `endpointsForContainer` and `endpointForPort` -/

namespace docker

/-- C4. A container that is not running, or that is paused, has no endpoint:
`endpointsForContainer` returns the empty sequence whatever the labels, the
exposed ports and the host mappings of the container. -/
theorem endpointsForContainer_not_running
    (getConfigLabels : StringMap → List (contPort × labelConfig))
    (ord : RangeOrder) (config : Config) (cont : dtypes.ContainerJSON)
    (h : cont.State.Running = false ∨ cont.State.Paused = true) :
    endpointsForContainer getConfigLabels ord config cont = Result.ok [] := by
  unfold endpointsForContainer
  have hguard : ¬ (cont.State.Running = true ∧ cont.State.Paused = false) := by
    rcases h with h | h <;> simp [h]
  rw [if_neg hguard]

/-- Witness of C4: the container `web`, once paused, has no endpoint. -/
theorem endpointsForContainer_not_running_witness :
    ({ web with State := { web.State with Paused := true } } : dtypes.ContainerJSON).State.Paused
        = true ∧
      endpointsForContainer noLabels RangeOrder.inOrder defaultConfig
        { web with State := { web.State with Paused := true } } = Result.ok [] :=
  ⟨rfl, endpointsForContainer_not_running noLabels RangeOrder.inOrder defaultConfig
    { web with State := { web.State with Paused := true } } (Or.inr rfl)⟩

/-- C5. Host-binding precedence for the ports of a returned endpoint: when the
host binding is applied, `Port` is the host-mapped port, `AltPort` the
container port and the preference `PUBLIC`; in every other case `Port` is the
container port, `AltPort` the host-mapped port (0 when the port has no
mapping) and the preference `PRIVATE`. -/
theorem endpointForPort_port_precedence (ord : RangeOrder) (config : Config)
    (portObj : contPort) (cont : dtypes.ContainerJSON) (sc : services.Container)
    (e : services.ContainerEndpoint)
    (h : endpointForPort ord config portObj cont sc = Result.ok (some e)) :
    (hostBindingsApplied config cont portObj →
      e.Port = (dockercommon.FindHostMappedPort cont portObj.Port).1 ∧
        e.AltPort = portObj.Port.Int ∧
        e.Orchestration.PortPref = services.PortPreference.PUBLIC) ∧
    (¬ hostBindingsApplied config cont portObj →
      e.Port = portObj.Port.Int ∧
        e.AltPort = (dockercommon.FindHostMappedPort cont portObj.Port).1 ∧
        e.Orchestration.PortPref = services.PortPreference.PRIVATE) ∧
    (cont.NetworkSettings.Ports.find? (fun kv => kv.1 = portObj.Port) = none →
      e.Port = portObj.Port.Int ∧ e.AltPort = 0 ∧
        e.Orchestration.PortPref = services.PortPreference.PRIVATE) := by
  have hm := FindHostMappedPort_lt cont portObj.Port
  have hp := Port_Int_lt portObj.Port
  have key :
      (hostBindingsApplied config cont portObj →
        e.Port = (dockercommon.FindHostMappedPort cont portObj.Port).1 ∧
          e.AltPort = portObj.Port.Int ∧
          e.Orchestration.PortPref = services.PortPreference.PUBLIC) ∧
      (¬ hostBindingsApplied config cont portObj →
        e.Port = portObj.Port.Int ∧
          e.AltPort = (dockercommon.FindHostMappedPort cont portObj.Port).1 ∧
          e.Orchestration.PortPref = services.PortPreference.PRIVATE) := by
    unfold endpointForPort at h
    unfold hostBindingsApplied
    simp only [] at h
    split at h
    · cases h
    · split at h
      · cases h
      · split at h
        · rename_i hb
          injection h with h; injection h with h
          subst h
          exact ⟨fun _ => ⟨uint16_of_lt hm, uint16_of_lt hp, rfl⟩, fun hn => absurd hb hn⟩
        · rename_i hb
          injection h with h; injection h with h
          subst h
          refine ⟨fun hn => absurd hn hb, fun _ => ⟨uint16_of_lt hp, uint16_of_lt hm, ?_⟩⟩
          split <;> [rfl; split <;> rfl]
  refine ⟨key.1, key.2, fun hnone => ?_⟩
  have hzero : dockercommon.FindHostMappedPort cont portObj.Port = (0, "") := by
    unfold dockercommon.FindHostMappedPort
    rw [hnone]
  have hna : ¬ hostBindingsApplied config cont portObj := by
    unfold hostBindingsApplied
    rw [hzero]
    simp
  have h2 := key.2 hna
  rw [hzero] at h2
  exact h2

/-- C6. Host address of a returned endpoint: the mapped host IP when the host
binding is applied, `0.0.0.0` being rewritten to `127.0.0.1`; otherwise the
hostname of the container when `UseHostnameIfPresent` is set and the hostname
is not empty; otherwise the IP address of one of the networks of the
container, and the empty string when it has none. -/
theorem endpointForPort_host_resolution (ord : RangeOrder) (config : Config)
    (portObj : contPort) (cont : dtypes.ContainerJSON) (sc : services.Container)
    (e : services.ContainerEndpoint)
    (h : endpointForPort ord config portObj cont sc = Result.ok (some e)) :
    (hostBindingsApplied config cont portObj →
      e.Host =
        if (dockercommon.FindHostMappedPort cont portObj.Port).2 = "0.0.0.0" then "127.0.0.1"
        else (dockercommon.FindHostMappedPort cont portObj.Port).2) ∧
    (¬ hostBindingsApplied config cont portObj →
      config.UseHostnameIfPresent = true ∧ cont.Config.Hostname ≠ "" →
      e.Host = cont.Config.Hostname) ∧
    (¬ hostBindingsApplied config cont portObj →
      ¬ (config.UseHostnameIfPresent = true ∧ cont.Config.Hostname ≠ "") →
      (cont.NetworkSettings.Networks = [] ∧ e.Host = "") ∨
        ∃ n ∈ cont.NetworkSettings.Networks, e.Host = n.2.IPAddress) := by
  unfold endpointForPort at h
  unfold hostBindingsApplied
  simp only [] at h
  split at h
  · cases h
  · split at h
    · cases h
    · split at h
      · rename_i hb
        injection h with h; injection h with h
        subst h
        exact ⟨fun _ => rfl, fun hn => absurd hb hn, fun hn => absurd hb hn⟩
      · rename_i hb
        injection h with h; injection h with h
        subst h
        refine ⟨fun hn => absurd hn hb, fun _ hh => ?_, fun _ hh => ?_⟩
        · simp only [if_pos hh]
        · simp only [if_neg hh]
          cases hnet : ord.networks cont.NetworkSettings.Networks with
          | nil =>
            left
            have hperm := ord.networks_perm cont.NetworkSettings.Networks
            rw [hnet] at hperm
            exact ⟨List.Perm.nil_eq hperm |>.symm, rfl⟩
          | cons n rest =>
            right
            have hperm := ord.networks_perm cont.NetworkSettings.Networks
            refine ⟨n, hperm.subset ?_, rfl⟩
            rw [hnet]
            exact List.mem_cons_self n rest

/-- C7. Exclusion policy: `endpointForPort` returns nil exactly when
`IgnoreNonHostBindings` is set and the port has no host mapping (mapped port 0
and mapped IP empty). In the result of `endpointsForContainer` such a port
contributes no element, and every other candidate port of the container is
still built into the result. -/
theorem endpointForPort_exclusion
    (getConfigLabels : StringMap → List (contPort × labelConfig))
    (ord : RangeOrder) (config : Config) (cont : dtypes.ContainerJSON) :
    (∀ (portObj : contPort) (sc : services.Container),
      endpointForPort ord config portObj cont sc = Result.ok none ↔
        (config.IgnoreNonHostBindings = true ∧
          dockercommon.FindHostMappedPort cont portObj.Port = (0, ""))) ∧
    (cont.State.Running = true ∧ cont.State.Paused = false →
      ∀ es, endpointsForContainer getConfigLabels ord config cont = Result.ok es →
        es.length =
            ((knownPorts (getConfigLabels cont.Config.Labels) cont).filter
              (fun p => ¬ omittedByPolicy config cont p)).length ∧
          ∀ p ∈ knownPorts (getConfigLabels cont.Config.Labels) cont,
            ¬ omittedByPolicy config cont p →
            ∃ e0, endpointForPort ord config p cont (serviceContainerOf cont) =
                Result.ok (some e0) ∧
              applyLabelConf (getConfigLabels cont.Config.Labels) p e0 ∈ es) := by
  refine ⟨fun portObj sc => ?_, fun hrun es hes => ?_⟩
  · rw [endpointForPort_none_iff]
    unfold omittedByPolicy
    rw [Prod.ext_iff]
  · obtain ⟨hret, hes⟩ := (endpointsForContainer_ok_iff getConfigLabels ord config cont hrun es).1 hes
    have hperm := ord.ports_perm (knownPorts (getConfigLabels cont.Config.Labels) cont)
    refine ⟨?_, fun p hp hkeep => ?_⟩
    · rw [hes]
      exact length_appended ord config _ cont _ hret
    · obtain ⟨r, hr⟩ := hret p hp
      cases r with
      | none => exact absurd ((endpointForPort_none_iff ord config p cont _).1 hr) hkeep
      | some e0 =>
        refine ⟨e0, hr, ?_⟩
        rw [hes, List.mem_filterMap]
        exact ⟨p, hperm.symm.subset hp,
          (appendedFor_eq_some_iff ord config _ cont _ p _).2 ⟨e0, hr, rfl⟩⟩

/-- Witness of C5: port 6379 of `redis` under `hostConfig` takes the host-mapped port. -/
theorem endpointForPort_port_precedence_witness :
    endpointForPort RangeOrder.inOrder hostConfig { Port := ⟨6379, "tcp"⟩, Name := "" } redis
        (serviceContainerOf redis) = Result.ok (some redisPublic) ∧
      redisPublic.Port = 32768 ∧ redisPublic.AltPort = 6379 ∧
      redisPublic.Orchestration.PortPref = services.PortPreference.PUBLIC :=
  ⟨by decide,
    (endpointForPort_port_precedence RangeOrder.inOrder hostConfig
      { Port := ⟨6379, "tcp"⟩, Name := "" } redis (serviceContainerOf redis) redisPublic
      (by decide)).1 (by decide)⟩

/-- Witness of C6: port 80 of `web` takes the address of the network of the container. -/
theorem endpointForPort_host_resolution_witness :
    endpointForPort RangeOrder.inOrder defaultConfig { Port := ⟨80, "tcp"⟩, Name := "" } web
        (serviceContainerOf web) = Result.ok (some web80) ∧
      ((web.NetworkSettings.Networks = [] ∧ web80.Host = "") ∨
        ∃ n ∈ web.NetworkSettings.Networks, web80.Host = n.2.IPAddress) :=
  ⟨by decide,
    (endpointForPort_host_resolution RangeOrder.inOrder defaultConfig
      { Port := ⟨80, "tcp"⟩, Name := "" } web (serviceContainerOf web) web80
      (by decide)).2.2 (by decide) (by decide)⟩

/-- Witness of C7: under `hostConfig` the unpublished port 6380 of `redis` is
left out and the published port 6379 is built. -/
theorem endpointForPort_exclusion_witness :
    endpointsForContainer noLabels RangeOrder.inOrder hostConfig redis =
        Result.ok [redisPublic] ∧
      [redisPublic].length =
        ((knownPorts (noLabels redis.Config.Labels) redis).filter
          (fun p => ¬ omittedByPolicy hostConfig redis p)).length :=
  ⟨by decide,
    ((endpointForPort_exclusion noLabels RangeOrder.inOrder hostConfig redis).2
      ⟨rfl, rfl⟩ [redisPublic] (by decide)).1⟩

end docker

/-! ## Claims on `changeHandler` -/

namespace docker

theorem lookupEndpoints_storeEndpoints (m : List (String × List services.ContainerEndpoint))
    (id : String) (es : List services.ContainerEndpoint) :
    lookupEndpoints (storeEndpoints m id es) id = some es := by
  unfold lookupEndpoints storeEndpoints
  simp

theorem lookupEndpoints_deleteEndpoints (m : List (String × List services.ContainerEndpoint))
    (id : String) : lookupEndpoints (deleteEndpoints m id) id = none := by
  unfold lookupEndpoints deleteEndpoints
  have : (m.filter (fun kv => kv.1 ≠ id)).find? (fun kv => kv.1 = id) = none := by
    rw [List.find?_eq_none]
    intro kv hkv
    have := (List.mem_filter.1 hkv).2
    simpa using this
  simp only [this]

theorem deleteEndpoints_storeEndpoints (m : List (String × List services.ContainerEndpoint))
    (id : String) (es : List services.ContainerEndpoint) :
    deleteEndpoints (storeEndpoints m id es) id = deleteEndpoints m id := by
  unfold deleteEndpoints storeEndpoints
  simp [List.filter_filter]

theorem deleteEndpoints_deleteEndpoints (m : List (String × List services.ContainerEndpoint))
    (id : String) : deleteEndpoints (deleteEndpoints m id) id = deleteEndpoints m id := by
  unfold deleteEndpoints
  simp [List.filter_filter]

theorem notify_self (es : Option (List services.ContainerEndpoint)) : notify es es = [] := by
  unfold notify DeepEqual
  simp

theorem notify_of_ne (oldEndpoints newEndpoints : Option (List services.ContainerEndpoint))
    (h : newEndpoints ≠ oldEndpoints) :
    notify oldEndpoints newEndpoints =
      (oldEndpoints.getD []).map Callback.Removed ++
        (newEndpoints.getD []).map Callback.Added := by
  unfold notify DeepEqual
  simp [h]

theorem changeHandler_nil (getConfigLabels : StringMap → List (contPort × labelConfig))
    (ord : RangeOrder) (docker : Docker) (old : Option dtypes.ContainerJSON) :
    changeHandler getConfigLabels ord docker old none =
      Result.ok ({ docker with endpointsByContainerID := afterDelete docker old },
        notify (oldEndpointsOf docker old) none) := rfl

theorem changeHandler_of_ok (getConfigLabels : StringMap → List (contPort × labelConfig))
    (ord : RangeOrder) (docker : Docker) (old : Option dtypes.ContainerJSON)
    (n : dtypes.ContainerJSON) (es : List services.ContainerEndpoint)
    (h : endpointsForContainer getConfigLabels ord docker.config n = Result.ok es) :
    changeHandler getConfigLabels ord docker old (some n) =
      Result.ok
        ({ docker with
            endpointsByContainerID := storeEndpoints (afterDelete docker old) n.ID es },
          notify (oldEndpointsOf docker old) (some es)) := by
  unfold changeHandler
  simp only [h]

theorem changeHandler_of_panic (getConfigLabels : StringMap → List (contPort × labelConfig))
    (ord : RangeOrder) (docker : Docker) (old : Option dtypes.ContainerJSON)
    (n : dtypes.ContainerJSON) (msg : String)
    (h : endpointsForContainer getConfigLabels ord docker.config n = Result.panic msg) :
    changeHandler getConfigLabels ord docker old (some n) = Result.panic msg := by
  unfold changeHandler
  simp only [h]

/-- C1, evaluated. The endpoints of `web` are recorded, port 80 first. An
update of `web` with unchanged content whose visit reaches port 81 first
computes the same endpoints in the other order, and `changeHandler` removes
both endpoints and adds them again. -/
theorem changeHandler_churn_on_visit_order :
    changeHandler noLabels RangeOrder.inOrder { config := defaultConfig, endpointsByContainerID := [] }
        none (some web) = Result.ok (dockerWeb, [Callback.Added web80, Callback.Added web81]) ∧
      lookupEndpoints dockerWeb.endpointsByContainerID web.ID = some [web80, web81] ∧
      endpointsForContainer noLabels RangeOrder.reversed defaultConfig web =
        Result.ok [web81, web80] ∧
      List.Perm [web81, web80] [web80, web81] ∧
      changeHandler noLabels RangeOrder.reversed dockerWeb (some web) (some web) =
        Result.ok
          ({ config := defaultConfig,
             endpointsByContainerID := [("0123456789abcdef", [web81, web80])] },
            [Callback.Removed web80, Callback.Removed web81,
              Callback.Added web81, Callback.Added web80]) :=
  ⟨by decide, by decide, by decide, List.Perm.swap web80 web81 [], by decide⟩

/-- C2. Full remove-then-add: `oldEndpoints` being the endpoints recorded
for `old.ID` (the value of the first entry of `endpointsByContainerID` with
that key; none when there is no such entry or `old` is nil) and `newEndpoints`
the endpoints that `endpointsForContainer` computes for `new` (none when `new`
is nil), if the two differ then `changeHandler` invokes `Removed` once for
each endpoint of `oldEndpoints`, then `Added` once for each endpoint of
`newEndpoints`, and nothing else. The hypothesis is the weakest reading of
"differs": the two sequences are not equal, which holds whenever their
contents differ. -/
theorem changeHandler_remove_then_add
    (getConfigLabels : StringMap → List (contPort × labelConfig))
    (ord : RangeOrder) (docker : Docker) (old new : Option dtypes.ContainerJSON)
    (oldEndpoints newEndpoints : List services.ContainerEndpoint)
    (hold : oldEndpoints =
      match old with
      | some o =>
        match docker.endpointsByContainerID.find? (fun kv => decide (kv.1 = o.ID)) with
        | some kv => kv.2
        | none => []
      | none => [])
    (hnew :
      match new with
      | some n =>
        endpointsForContainer getConfigLabels ord docker.config n = Result.ok newEndpoints
      | none => newEndpoints = [])
    (hdiff : newEndpoints ≠ oldEndpoints) :
    ∃ docker1, changeHandler getConfigLabels ord docker old new =
      Result.ok (docker1,
        oldEndpoints.map Callback.Removed ++ newEndpoints.map Callback.Added) := by
  have hold2 : (oldEndpointsOf docker old).getD [] = oldEndpoints := by
    rw [hold]
    cases old with
    | none => rfl
    | some o =>
      simp only [oldEndpointsOf, lookupEndpoints]
      cases docker.endpointsByContainerID.find? (fun kv => decide (kv.1 = o.ID)) <;> rfl
  cases new with
  | none =>
    simp only [] at hnew
    have hne : (none : Option (List services.ContainerEndpoint)) ≠ oldEndpointsOf docker old := by
      intro heq
      rw [← heq] at hold2
      exact hdiff (hnew.trans hold2)
    refine ⟨{ docker with endpointsByContainerID := afterDelete docker old }, ?_⟩
    rw [changeHandler_nil, notify_of_ne _ _ hne, hold2, hnew]
    rfl
  | some n =>
    simp only [] at hnew
    have hne : some newEndpoints ≠ oldEndpointsOf docker old := by
      intro heq
      rw [← heq] at hold2
      exact hdiff hold2
    refine ⟨{ docker with
      endpointsByContainerID := storeEndpoints (afterDelete docker old) n.ID newEndpoints }, ?_⟩
    rw [changeHandler_of_ok _ _ _ _ _ _ hnew, notify_of_ne _ _ hne, hold2]
    rfl

/-- Witness of C2: `web` stops exposing port 81; both recorded endpoints are
removed, then the endpoint of port 80 is added. -/
theorem changeHandler_remove_then_add_witness :
    endpointsForContainer noLabels RangeOrder.inOrder dockerWeb.config webOnly80 =
        Result.ok [web80] ∧
      dockerWeb.endpointsByContainerID = [(web.ID, [web80, web81])] ∧
      ∃ docker1, changeHandler noLabels RangeOrder.inOrder dockerWeb (some web) (some webOnly80) =
        Result.ok (docker1,
          [Callback.Removed web80, Callback.Removed web81, Callback.Added web80]) :=
  ⟨by decide, by decide,
    changeHandler_remove_then_add noLabels RangeOrder.inOrder dockerWeb (some web)
      (some webOnly80) [web80, web81] [web80] (by decide) (by decide) (by decide)⟩

/-- C3, refuted for a container start. The start of `web` is notified twice
with the same content and the same visiting order: the second call invokes
`Added` again for both endpoints. -/
theorem changeHandler_start_twice_adds_twice :
    changeHandler noLabels RangeOrder.inOrder { config := defaultConfig, endpointsByContainerID := [] }
        none (some web) = Result.ok (dockerWeb, [Callback.Added web80, Callback.Added web81]) ∧
      changeHandler noLabels RangeOrder.inOrder dockerWeb none (some web) =
        Result.ok (dockerWeb, [Callback.Added web80, Callback.Added web81]) ∧
      [Callback.Added web80, Callback.Added web81] ≠ [] :=
  ⟨by decide, by decide, by decide⟩

/-- C3, amended. For a removal (`new` nil) and for an update of one container
(`old` and `new` non-nil with the same id), a second call of `changeHandler`
with the same content and the same visiting order invokes no callback and
leaves the state as the first call left it. -/
theorem changeHandler_idempotent
    (getConfigLabels : StringMap → List (contPort × labelConfig))
    (ord : RangeOrder) (docker : Docker) (old new : Option dtypes.ContainerJSON)
    (hshape : new = none ∨ ∃ o n, old = some o ∧ new = some n ∧ o.ID = n.ID)
    (docker1 : Docker) (callbacks : List Callback)
    (hfirst : changeHandler getConfigLabels ord docker old new = Result.ok (docker1, callbacks)) :
    changeHandler getConfigLabels ord docker1 old new = Result.ok (docker1, []) := by
  rcases hshape with hnone | ⟨o, n, ho, hn, hid⟩
  · subst hnone
    rw [changeHandler_nil] at hfirst
    injection hfirst with hfirst
    injection hfirst with hd hc
    subst hd
    rw [changeHandler_nil]
    cases old with
    | none =>
      simp only [afterDelete, oldEndpointsOf, notify_self]
    | some o =>
      simp only [afterDelete, oldEndpointsOf, lookupEndpoints_deleteEndpoints,
        deleteEndpoints_deleteEndpoints, notify_self]
  · subst ho hn
    cases hes : endpointsForContainer getConfigLabels ord docker.config n with
    | panic msg =>
      rw [changeHandler_of_panic _ _ _ _ _ _ hes] at hfirst
      cases hfirst
    | ok es =>
      rw [changeHandler_of_ok _ _ _ _ _ _ hes] at hfirst
      injection hfirst with hfirst
      injection hfirst with hd hc
      subst hd
      rw [changeHandler_of_ok _ _ _ _ _ es (by exact hes)]
      simp only [afterDelete, oldEndpointsOf, hid, lookupEndpoints_storeEndpoints,
        deleteEndpoints_storeEndpoints, deleteEndpoints_deleteEndpoints, notify_self]

/-- Witness of C3, amended: the update of `web` to one exposed port, notified twice. -/
theorem changeHandler_idempotent_witness :
    changeHandler noLabels RangeOrder.inOrder dockerWeb (some web) (some webOnly80) =
        Result.ok
          ({ config := defaultConfig,
             endpointsByContainerID := [("0123456789abcdef", [web80])] },
            [Callback.Removed web80, Callback.Removed web81, Callback.Added web80]) ∧
      changeHandler noLabels RangeOrder.inOrder
          { config := defaultConfig, endpointsByContainerID := [("0123456789abcdef", [web80])] }
          (some web) (some webOnly80) =
        Result.ok
          ({ config := defaultConfig,
             endpointsByContainerID := [("0123456789abcdef", [web80])] }, []) :=
  ⟨by decide,
    changeHandler_idempotent noLabels RangeOrder.inOrder dockerWeb (some web) (some webOnly80)
      (Or.inr ⟨web, webOnly80, rfl, rfl, rfl⟩)
      { config := defaultConfig, endpointsByContainerID := [("0123456789abcdef", [web80])] }
      [Callback.Removed web80, Callback.Removed web81, Callback.Added web80] (by decide)⟩

/-- C9, refuted. The start of a running container with one exposed port whose
id has three characters: the slice `cont.ID[:12]` panics and the panic leaves
`changeHandler`, on the followed snapshot and on the snapshot with pointers alike. -/
theorem changeHandler_panics_on_short_id :
    changeHandler noLabels RangeOrder.inOrder { config := defaultConfig, endpointsByContainerID := [] }
        none (some shortID) = Result.panic "slice bounds out of range" ∧
      changeHandlerPtr noLabels RangeOrderPtr.inOrder
        { config := defaultConfig, endpointsByContainerID := [] }
        none (some shortID.toPtr) = Result.panic "slice bounds out of range" :=
  ⟨by decide, by decide⟩

end docker

/-! ## Claims on identifiers and on the candidate ports -/

namespace docker

theorem endpointForPort_ID (ord : RangeOrder) (config : Config) (portObj : contPort)
    (cont : dtypes.ContainerJSON) (sc : services.Container) (e : services.ContainerEndpoint)
    (h : endpointForPort ord config portObj cont sc = Result.ok (some e)) :
    e.ID = endpointID sc.PrimaryName (String.mk (cont.ID.data.take 12)) portObj.Port.Int
      portObj.Name := by
  unfold endpointForPort at h
  by_cases hlen : 12 ≤ cont.ID.length
  · simp only [sliceTo_ok hlen] at h
    split at h
    · cases h
    · split at h
      · injection h with h; injection h with h
        subst h
        unfold endpointID services.NewEndpointCore
        split <;> [rfl; (split <;> rfl)]
      · injection h with h; injection h with h
        subst h
        unfold endpointID services.NewEndpointCore
        split <;> [rfl; (split <;> rfl)]
  · simp only [sliceTo_panic hlen] at h
    split at h <;> cases h

theorem applyLabelConf_ID (lc : List (contPort × labelConfig)) (p : contPort)
    (e : services.ContainerEndpoint) : (applyLabelConf lc p e).ID = e.ID := by
  unfold applyLabelConf
  split <;> rfl

/-- C8, refuted. The container `dns` exposes port 53 over TCP and over UDP:
two distinct candidate identities, whose endpoints have the same identifier. -/
theorem endpoint_ids_collide_across_protocols :
    knownPorts (noLabels dns.Config.Labels) dns =
        [{ Port := ⟨53, "tcp"⟩, Name := "" }, { Port := ⟨53, "udp"⟩, Name := "" }] ∧
      ({ Port := ⟨53, "tcp"⟩, Name := "" } : contPort) ≠ { Port := ⟨53, "udp"⟩, Name := "" } ∧
      endpointsForContainer noLabels RangeOrder.inOrder defaultConfig dns =
        Result.ok [dnsEndpoint "TCP", dnsEndpoint "UDP"] ∧
      (dnsEndpoint "TCP").ID = (dnsEndpoint "UDP").ID :=
  ⟨by decide, by decide, by decide, rfl⟩

/-- C8, amended. Two candidate identities of a container that differ in port
number or in name give endpoints with different identifiers; and when no two
candidate identities of the container differ in protocol only, the identifiers
of the endpoints returned by `endpointsForContainer` are pairwise distinct. -/
theorem endpoint_ids_distinct
    (getConfigLabels : StringMap → List (contPort × labelConfig))
    (ord : RangeOrder) (config : Config) (cont : dtypes.ContainerJSON) :
    (∀ (p q : contPort) (sc : services.Container) (e1 e2 : services.ContainerEndpoint),
      endpointForPort ord config p cont sc = Result.ok (some e1) →
      endpointForPort ord config q cont sc = Result.ok (some e2) →
      p.Port.number ≠ q.Port.number ∨ p.Name ≠ q.Name → e1.ID ≠ e2.ID) ∧
    ((∀ p ∈ knownPorts (getConfigLabels cont.Config.Labels) cont,
        ∀ q ∈ knownPorts (getConfigLabels cont.Config.Labels) cont,
          p.Port.number = q.Port.number → p.Name = q.Name → p = q) →
      ∀ es, endpointsForContainer getConfigLabels ord config cont = Result.ok es →
        (es.map (fun e => e.ID)).Nodup) := by
  have hpair : ∀ (p q : contPort) (sc : services.Container)
      (e1 e2 : services.ContainerEndpoint),
      endpointForPort ord config p cont sc = Result.ok (some e1) →
      endpointForPort ord config q cont sc = Result.ok (some e2) →
      e1.ID = e2.ID → p.Port.number = q.Port.number ∧ p.Name = q.Name := by
    intro p q sc e1 e2 h1 h2 hid
    rw [endpointForPort_ID ord config p cont sc e1 h1,
      endpointForPort_ID ord config q cont sc e2 h2] at hid
    obtain ⟨hport, hname⟩ := endpointID_injective _ _ _ _ _ _ hid
    exact ⟨Fin.ext hport, hname⟩
  refine ⟨fun p q sc e1 e2 h1 h2 hne hid => ?_, fun hkeys es hes => ?_⟩
  · obtain ⟨hport, hname⟩ := hpair p q sc e1 e2 h1 h2 hid
    rcases hne with hne | hne
    · exact hne hport
    · exact hne hname
  · by_cases hrun : cont.State.Running = true ∧ cont.State.Paused = false
    · obtain ⟨_, hes2⟩ := (endpointsForContainer_ok_iff getConfigLabels ord config cont hrun es).1 hes
      have hperm := ord.ports_perm (knownPorts (getConfigLabels cont.Config.Labels) cont)
      have hnodup : (ord.ports (knownPorts (getConfigLabels cont.Config.Labels) cont)).Nodup :=
        hperm.nodup_iff.2 (List.nodup_dedup _)
      rw [hes2]
      unfold List.Nodup
      rw [List.pairwise_map, List.pairwise_filterMap]
      refine List.Pairwise.imp_of_mem ?_ hnodup
      intro p q hp hq hpq e1 he1 e2 he2 hid
      obtain ⟨a1, ha1, rfl⟩ := (appendedFor_eq_some_iff ord config _ cont _ p e1).1 he1
      obtain ⟨a2, ha2, rfl⟩ := (appendedFor_eq_some_iff ord config _ cont _ q e2).1 he2
      rw [applyLabelConf_ID, applyLabelConf_ID] at hid
      obtain ⟨hport, hname⟩ := hpair p q _ a1 a2 ha1 ha2 hid
      exact hpq (hkeys p (hperm.subset hp) q (hperm.subset hq) hport hname)
    · unfold endpointsForContainer at hes
      rw [if_neg hrun] at hes
      injection hes with hes
      subst hes
      exact List.nodup_nil

/-- Witness of C8, amended: the two endpoints of `web` have different identifiers. -/
theorem endpoint_ids_distinct_witness :
    endpointsForContainer noLabels RangeOrder.inOrder defaultConfig web =
        Result.ok [web80, web81] ∧
      ([web80, web81].map (fun e => e.ID)).Nodup :=
  ⟨by decide,
    (endpoint_ids_distinct noLabels RangeOrder.inOrder defaultConfig web).2 (by decide)
      [web80, web81] (by decide)⟩

/-- C10. Candidate ports of a running, unpaused container: the candidates are
the identities with a label configuration together with the exposed ports as
unnamed identities, each once; and the endpoints that `endpointsForContainer`
returns are those of the candidates that the exclusion policy keeps, exactly
one endpoint per kept candidate. -/
theorem endpointsForContainer_candidates
    (getConfigLabels : StringMap → List (contPort × labelConfig))
    (ord : RangeOrder) (config : Config) (cont : dtypes.ContainerJSON)
    (hrun : cont.State.Running = true ∧ cont.State.Paused = false) :
    (∀ p, p ∈ knownPorts (getConfigLabels cont.Config.Labels) cont ↔
      ((∃ labelConf, (p, labelConf) ∈ getConfigLabels cont.Config.Labels) ∨
        ∃ k ∈ cont.Config.ExposedPorts, p = { Port := k, Name := "" })) ∧
    (knownPorts (getConfigLabels cont.Config.Labels) cont).Nodup ∧
    (∀ es, endpointsForContainer getConfigLabels ord config cont = Result.ok es →
      ∃ ids : List contPort,
        ids.Perm ((knownPorts (getConfigLabels cont.Config.Labels) cont).filter
          (fun p => ¬ omittedByPolicy config cont p)) ∧
        ids.Nodup ∧
        List.Forall₂
          (fun p e => ∃ e0, endpointForPort ord config p cont (serviceContainerOf cont) =
              Result.ok (some e0) ∧
            e = applyLabelConf (getConfigLabels cont.Config.Labels) p e0)
          ids es) := by
  have hperm := ord.ports_perm (knownPorts (getConfigLabels cont.Config.Labels) cont)
  refine ⟨fun p => ?_, List.nodup_dedup _, fun es hes => ?_⟩
  · unfold knownPorts
    rw [List.mem_dedup, List.mem_append, List.mem_map, List.mem_map]
    constructor
    · rintro (⟨⟨q, c⟩, hq, rfl⟩ | ⟨k, hk, rfl⟩)
      · exact Or.inl ⟨c, hq⟩
      · exact Or.inr ⟨k, hk, rfl⟩
    · rintro (⟨c, hc⟩ | ⟨k, hk, rfl⟩)
      · exact Or.inl ⟨(p, c), hc, rfl⟩
      · exact Or.inr ⟨k, hk, rfl⟩
  · obtain ⟨hret, hes2⟩ :=
      (endpointsForContainer_ok_iff getConfigLabels ord config cont hrun es).1 hes
    refine ⟨(ord.ports (knownPorts (getConfigLabels cont.Config.Labels) cont)).filter
      (fun p => ¬ omittedByPolicy config cont p), hperm.filter _, ?_, ?_⟩
    · exact (hperm.nodup_iff.2 (List.nodup_dedup _)).filter _
    · rw [hes2]
      exact forall₂_kept_appended ord config _ cont _ _ (fun p hp => hret p (hperm.subset hp))

/-- Witness of C10: the container `app` has two candidate identities, the
labelled `8080-app` and the exposed port 8080, and one endpoint is returned
for each. -/
theorem endpointsForContainer_candidates_witness :
    (app.State.Running = true ∧ app.State.Paused = false) ∧
      knownPorts (appLabels app.Config.Labels) app =
        [{ Port := ⟨8080, "tcp"⟩, Name := "app" }, { Port := ⟨8080, "tcp"⟩, Name := "" }] ∧
      endpointsForContainer appLabels RangeOrder.inOrder defaultConfig app =
        Result.ok [appNamed, appPlain] ∧
      ∃ ids : List contPort,
        ids.Perm ((knownPorts (appLabels app.Config.Labels) app).filter
          (fun p => ¬ omittedByPolicy defaultConfig app p)) ∧
        ids.Nodup ∧
        List.Forall₂
          (fun p e => ∃ e0, endpointForPort RangeOrder.inOrder defaultConfig p app
              (serviceContainerOf app) = Result.ok (some e0) ∧
            e = applyLabelConf (appLabels app.Config.Labels) p e0)
          ids [appNamed, appPlain] :=
  ⟨⟨rfl, rfl⟩, by decide, by decide,
    (endpointsForContainer_candidates appLabels RangeOrder.inOrder defaultConfig app
      ⟨rfl, rfl⟩).2.2 [appNamed, appPlain] (by decide)⟩

end docker

/-! ## Claim on the label override -/

namespace docker

theorem applyLabelConf_of_some (lc : List (contPort × labelConfig)) (p : contPort)
    (e : services.ContainerEndpoint) (labelConf : labelConfig)
    (h : labelConfigFor lc p = some labelConf) :
    applyLabelConf lc p e =
      { e with MonitorType := labelConf.MonitorType, Configuration := labelConf.Configuration } := by
  unfold labelConfigFor at h
  unfold applyLabelConf
  cases hf : lc.find? (fun kv => kv.1 = p) with
  | none => rw [hf] at h; cases h
  | some kv =>
    rw [hf] at h
    injection h with h
    subst h
    rfl

theorem applyLabelConf_of_none (lc : List (contPort × labelConfig)) (p : contPort)
    (e : services.ContainerEndpoint) (h : labelConfigFor lc p = none) :
    applyLabelConf lc p e = e := by
  unfold labelConfigFor at h
  unfold applyLabelConf
  cases hf : lc.find? (fun kv => kv.1 = p) with
  | none => rfl
  | some kv => rw [hf] at h; cases h

/-- C11. Label override: every endpoint returned by `endpointsForContainer`
comes from a candidate identity and from the endpoint that `endpointForPort`
built for it; when the identity has a label configuration, `MonitorType` and
`Configuration` are those of that label configuration; when it has none, both
fields are as `endpointForPort` built them; every other field is as
`endpointForPort` built it. -/
theorem endpointsForContainer_label_override
    (getConfigLabels : StringMap → List (contPort × labelConfig))
    (ord : RangeOrder) (config : Config) (cont : dtypes.ContainerJSON)
    (es : List services.ContainerEndpoint)
    (hes : endpointsForContainer getConfigLabels ord config cont = Result.ok es) :
    ∀ e ∈ es, ∃ p ∈ knownPorts (getConfigLabels cont.Config.Labels) cont,
      ∃ e0, endpointForPort ord config p cont (serviceContainerOf cont) = Result.ok (some e0) ∧
        (∀ labelConf, labelConfigFor (getConfigLabels cont.Config.Labels) p = some labelConf →
          e.MonitorType = labelConf.MonitorType ∧ e.Configuration = labelConf.Configuration) ∧
        (labelConfigFor (getConfigLabels cont.Config.Labels) p = none →
          e.MonitorType = e0.MonitorType ∧ e.Configuration = e0.Configuration) ∧
        ({ e with MonitorType := e0.MonitorType, Configuration := e0.Configuration } :
          services.ContainerEndpoint) = e0 := by
  intro e he
  by_cases hrun : cont.State.Running = true ∧ cont.State.Paused = false
  · obtain ⟨_, hes2⟩ :=
      (endpointsForContainer_ok_iff getConfigLabels ord config cont hrun es).1 hes
    rw [hes2, List.mem_filterMap] at he
    obtain ⟨p, hp, hap⟩ := he
    obtain ⟨e0, he0, rfl⟩ := (appendedFor_eq_some_iff ord config _ cont _ p e).1 hap
    have hperm := ord.ports_perm (knownPorts (getConfigLabels cont.Config.Labels) cont)
    refine ⟨p, hperm.subset hp, e0, he0, fun labelConf hl => ?_, fun hn => ?_, ?_⟩
    · rw [applyLabelConf_of_some _ _ _ _ hl]
      exact ⟨rfl, rfl⟩
    · rw [applyLabelConf_of_none _ _ _ hn]
      exact ⟨rfl, rfl⟩
    · cases hl : labelConfigFor (getConfigLabels cont.Config.Labels) p with
      | none => rw [applyLabelConf_of_none _ _ _ hl]
      | some labelConf => rw [applyLabelConf_of_some _ _ _ _ hl]
  · unfold endpointsForContainer at hes
    rw [if_neg hrun] at hes
    injection hes with hes
    subst hes
    cases he

/-- Witness of C11: the endpoint of the labelled identity `8080-app` of `app`
has the monitor type of its label. -/
theorem endpointsForContainer_label_override_witness :
    endpointsForContainer appLabels RangeOrder.inOrder defaultConfig app =
        Result.ok [appNamed, appPlain] ∧
      labelConfigFor (appLabels app.Config.Labels) { Port := ⟨8080, "tcp"⟩, Name := "app" } =
        some { MonitorType := "prometheus-exporter", Configuration := [] } ∧
      appNamed.MonitorType = "prometheus-exporter" ∧
      ∃ p ∈ knownPorts (appLabels app.Config.Labels) app,
        ∃ e0, endpointForPort RangeOrder.inOrder defaultConfig p app (serviceContainerOf app) =
            Result.ok (some e0) ∧
          ({ appNamed with MonitorType := e0.MonitorType, Configuration := e0.Configuration } :
            services.ContainerEndpoint) = e0 :=
  ⟨by decide, by decide, by decide,
    (endpointsForContainer_label_override appLabels RangeOrder.inOrder defaultConfig app
      [appNamed, appPlain] (by decide) appNamed (by decide)).imp
      (fun _ h => ⟨h.1, h.2.imp (fun _ h2 => ⟨h2.1, h2.2.2.2⟩)⟩)⟩

end docker

/-! ## Claim on the state update -/

namespace docker

theorem lookupEndpoints_filter_ne (m : List (String × List services.ContainerEndpoint))
    (id other : String) (h : other ≠ id) :
    lookupEndpoints (m.filter (fun kv => kv.1 ≠ id)) other = lookupEndpoints m other := by
  unfold lookupEndpoints
  have hfind : (m.filter (fun kv => kv.1 ≠ id)).find? (fun kv => kv.1 = other) =
      m.find? (fun kv => kv.1 = other) := by
    induction m with
    | nil => rfl
    | cons kv rest ih =>
      by_cases hk : kv.1 = id
      · have hne : ¬ kv.1 = other := fun hko => h (hko.symm.trans hk)
        rw [List.filter_cons_of_neg (by simpa using hk), List.find?_cons_of_neg _ (by simpa using hne)]
        exact ih
      · rw [List.filter_cons_of_pos (by simpa using hk)]
        by_cases hko : kv.1 = other
        · rw [List.find?_cons_of_pos _ (by simpa using hko),
            List.find?_cons_of_pos _ (by simpa using hko)]
        · rw [List.find?_cons_of_neg _ (by simpa using hko),
            List.find?_cons_of_neg _ (by simpa using hko)]
          exact ih
  rw [hfind]

theorem lookupEndpoints_deleteEndpoints_ne (m : List (String × List services.ContainerEndpoint))
    (id other : String) (h : other ≠ id) :
    lookupEndpoints (deleteEndpoints m id) other = lookupEndpoints m other :=
  lookupEndpoints_filter_ne m id other h

theorem lookupEndpoints_storeEndpoints_ne (m : List (String × List services.ContainerEndpoint))
    (id other : String) (es : List services.ContainerEndpoint) (h : other ≠ id) :
    lookupEndpoints (storeEndpoints m id es) other = lookupEndpoints m other := by
  have hstep : lookupEndpoints (storeEndpoints m id es) other =
      lookupEndpoints (m.filter (fun kv => kv.1 ≠ id)) other := by
    unfold lookupEndpoints storeEndpoints
    rw [List.find?_cons_of_neg _ (by simpa using fun hio : id = other => h hio.symm)]
  rw [hstep, lookupEndpoints_filter_ne m id other h]

/-- C12. State update: when the endpoints of `new` are computed (or `new` is
nil), `changeHandler` returns, and in the state it leaves `new.ID` is mapped
to the endpoints just computed, `old.ID` has no entry unless it is `new.ID`,
the entry of every other container id is as before, and the configuration is
unchanged; this does not depend on the callbacks invoked. -/
theorem changeHandler_state_update
    (getConfigLabels : StringMap → List (contPort × labelConfig))
    (ord : RangeOrder) (docker : Docker) (old new : Option dtypes.ContainerJSON)
    (newEndpoints : Option (List services.ContainerEndpoint))
    (hnew : newEndpointsOf getConfigLabels ord docker.config new = Result.ok newEndpoints) :
    ∃ docker1 callbacks,
      changeHandler getConfigLabels ord docker old new = Result.ok (docker1, callbacks) ∧
      docker1.config = docker.config ∧
      (∀ n, new = some n →
        newEndpoints ≠ none ∧
          lookupEndpoints docker1.endpointsByContainerID n.ID = newEndpoints) ∧
      (∀ o, old = some o → (∀ n, new = some n → o.ID ≠ n.ID) →
        lookupEndpoints docker1.endpointsByContainerID o.ID = none) ∧
      (∀ id, (∀ o, old = some o → id ≠ o.ID) → (∀ n, new = some n → id ≠ n.ID) →
        lookupEndpoints docker1.endpointsByContainerID id =
          lookupEndpoints docker.endpointsByContainerID id) := by
  cases new with
  | none =>
    refine ⟨_, _, changeHandler_nil getConfigLabels ord docker old, rfl,
      fun n hn => (by cases hn), fun o ho _ => ?_, fun id hold _ => ?_⟩
    · subst ho
      exact lookupEndpoints_deleteEndpoints _ _
    · cases old with
      | none => rfl
      | some o => exact lookupEndpoints_deleteEndpoints_ne _ _ _ (hold o rfl)
  | some n =>
    cases hes : endpointsForContainer getConfigLabels ord docker.config n with
    | panic msg => simp only [newEndpointsOf, hes] at hnew; cases hnew
    | ok es =>
      simp only [newEndpointsOf, hes] at hnew
      injection hnew with hnew
      subst hnew
      refine ⟨_, _, changeHandler_of_ok getConfigLabels ord docker old n es hes, rfl,
        fun m hm => ?_, fun o ho hne => ?_, fun id hold hnewid => ?_⟩
      · injection hm with hm
        subst hm
        exact ⟨by simp, lookupEndpoints_storeEndpoints _ _ _⟩
      · subst ho
        show lookupEndpoints (storeEndpoints (deleteEndpoints _ o.ID) n.ID es) o.ID = none
        rw [lookupEndpoints_storeEndpoints_ne _ _ _ _ (hne n rfl)]
        exact lookupEndpoints_deleteEndpoints _ _
      · show lookupEndpoints (storeEndpoints (afterDelete docker old) n.ID es) id = _
        rw [lookupEndpoints_storeEndpoints_ne _ _ _ _ (hnewid n rfl)]
        cases old with
        | none => rfl
        | some o => exact lookupEndpoints_deleteEndpoints_ne _ _ _ (hold o rfl)

/-- Witness of C12: an update of `web` with unchanged content invokes no
callback and records the endpoints just computed. -/
theorem changeHandler_state_update_witness :
    newEndpointsOf noLabels RangeOrder.inOrder dockerWeb.config (some web) =
        Result.ok (some [web80, web81]) ∧
      changeHandler noLabels RangeOrder.inOrder dockerWeb (some web) (some web) =
        Result.ok (dockerWeb, []) ∧
      ∃ docker1 callbacks,
        changeHandler noLabels RangeOrder.inOrder dockerWeb (some web) (some web) =
          Result.ok (docker1, callbacks) ∧
        lookupEndpoints docker1.endpointsByContainerID web.ID = some [web80, web81] :=
  ⟨by decide, by decide,
    (changeHandler_state_update noLabels RangeOrder.inOrder dockerWeb (some web) (some web)
      (some [web80, web81]) (by decide)).imp
      (fun _ h => h.imp (fun _ h2 => ⟨h2.1, (h2.2.2.1 web rfl).2⟩))⟩

end docker

/-! ## Claim on the consistency of the consumer with the state -/

namespace docker

theorem recorded_cons (id : String) (es : List services.ContainerEndpoint)
    (m : List (String × List services.ContainerEndpoint)) :
    recorded ((id, es) :: m) = (es : Multiset services.ContainerEndpoint) + recorded m := by
  unfold recorded
  simp only [List.map_cons, List.flatten_cons, Multiset.coe_add]

theorem filter_ne_eq_self (m : List (String × List services.ContainerEndpoint)) (id : String)
    (h : id ∉ m.map (fun kv => kv.1)) : m.filter (fun kv => kv.1 ≠ id) = m := by
  rw [List.filter_eq_self]
  intro kv hkv
  have : kv.1 ≠ id := fun hk => h (List.mem_map.2 ⟨kv, hkv, hk⟩)
  simpa using this

theorem not_mem_keys_of_lookup_none (m : List (String × List services.ContainerEndpoint))
    (id : String) (h : lookupEndpoints m id = none) : id ∉ m.map (fun kv => kv.1) := by
  unfold lookupEndpoints at h
  cases hf : m.find? (fun kv => kv.1 = id) with
  | some kv => rw [hf] at h; cases h
  | none =>
    rw [List.find?_eq_none] at hf
    intro hmem
    obtain ⟨kv, hkv, hk⟩ := List.mem_map.1 hmem
    exact hf kv hkv (by simpa using hk)

/-- With distinct keys, the recorded endpoints are those of one id together
with those left once its entry is deleted. -/
theorem recorded_eq_lookup_add (m : List (String × List services.ContainerEndpoint))
    (id : String) (hnodup : (m.map (fun kv => kv.1)).Nodup) :
    recorded m =
      (((lookupEndpoints m id).getD [] : List services.ContainerEndpoint) :
        Multiset services.ContainerEndpoint) + recorded (deleteEndpoints m id) := by
  induction m with
  | nil => simp [recorded, lookupEndpoints, deleteEndpoints]
  | cons kv rest ih =>
    obtain ⟨k, v⟩ := kv
    rw [List.map_cons, List.nodup_cons] at hnodup
    by_cases hk : k = id
    · subst hk
      have hl : lookupEndpoints ((k, v) :: rest) k = some v := by
        unfold lookupEndpoints
        simp
      have hd : deleteEndpoints ((k, v) :: rest) k = rest := by
        unfold deleteEndpoints
        rw [List.filter_cons_of_neg (by simp)]
        exact filter_ne_eq_self rest k hnodup.1
      rw [hl, hd, recorded_cons]
      rfl
    · have hl : lookupEndpoints ((k, v) :: rest) id = lookupEndpoints rest id := by
        unfold lookupEndpoints
        rw [List.find?_cons_of_neg _ (by simpa using hk)]
      have hd : deleteEndpoints ((k, v) :: rest) id = (k, v) :: deleteEndpoints rest id := by
        unfold deleteEndpoints
        rw [List.filter_cons_of_pos (by simpa using hk)]
      rw [hl, hd, recorded_cons, recorded_cons, ih hnodup.2, add_left_comm]

theorem keys_deleteEndpoints_nodup (m : List (String × List services.ContainerEndpoint))
    (id : String) (hnodup : (m.map (fun kv => kv.1)).Nodup) :
    ((deleteEndpoints m id).map (fun kv => kv.1)).Nodup :=
  hnodup.sublist ((List.filter_sublist m).map _)

theorem keys_storeEndpoints_nodup (m : List (String × List services.ContainerEndpoint))
    (id : String) (es : List services.ContainerEndpoint)
    (hnodup : (m.map (fun kv => kv.1)).Nodup) :
    ((storeEndpoints m id es).map (fun kv => kv.1)).Nodup := by
  unfold storeEndpoints
  rw [List.map_cons, List.nodup_cons]
  refine ⟨?_, hnodup.sublist ((List.filter_sublist m).map _)⟩
  intro hmem
  obtain ⟨kv, hkv, hk⟩ := List.mem_map.1 hmem
  have := (List.mem_filter.1 hkv).2
  simp only [ne_eq, decide_not, Bool.not_eq_eq_eq_not, Bool.not_true, decide_eq_false_iff_not]
    at this
  exact this hk

theorem recorded_storeEndpoints (m : List (String × List services.ContainerEndpoint))
    (id : String) (es : List services.ContainerEndpoint) :
    recorded (storeEndpoints m id es) =
      (es : Multiset services.ContainerEndpoint) + recorded (deleteEndpoints m id) := by
  unfold storeEndpoints deleteEndpoints
  exact recorded_cons _ _ _

theorem liveFrom_append (t1 t2 : List Callback) :
    ∀ live, liveFrom live (t1 ++ t2) = liveFrom (liveFrom live t1) t2 := by
  induction t1 with
  | nil => intro live; rfl
  | cons cb rest ih =>
    intro live
    cases cb with
    | Removed e => exact ih _
    | Added e => exact ih _

theorem removalsLive_append (t1 t2 : List Callback) :
    ∀ live, removalsLive live (t1 ++ t2) ↔
      removalsLive live t1 ∧ removalsLive (liveFrom live t1) t2 := by
  induction t1 with
  | nil => intro live; simp [removalsLive, liveFrom]
  | cons cb rest ih =>
    intro live
    cases cb with
    | Removed e =>
      show e ∈ live ∧ removalsLive (live.erase e) (rest ++ t2) ↔ _
      rw [ih]
      simp only [removalsLive, liveFrom, and_assoc]
    | Added e =>
      show removalsLive (e ::ₘ live) (rest ++ t2) ↔ _
      rw [ih]
      simp only [removalsLive, liveFrom]

theorem liveFrom_removed (oes : List services.ContainerEndpoint) :
    ∀ rest : Multiset services.ContainerEndpoint,
      liveFrom ((oes : Multiset services.ContainerEndpoint) + rest) (oes.map Callback.Removed)
          = rest ∧
        removalsLive ((oes : Multiset services.ContainerEndpoint) + rest)
          (oes.map Callback.Removed) := by
  induction oes with
  | nil =>
    intro rest
    simp [liveFrom, removalsLive]
  | cons e oes ih =>
    intro rest
    have hcons : ((e :: oes : List services.ContainerEndpoint) :
        Multiset services.ContainerEndpoint) + rest =
        e ::ₘ ((oes : Multiset services.ContainerEndpoint) + rest) := by
      rw [← Multiset.cons_coe, Multiset.cons_add]
    simp only [List.map_cons, liveFrom, removalsLive, hcons, Multiset.erase_cons_head,
      Multiset.mem_cons, true_or, true_and]
    exact ih rest

theorem liveFrom_added (nes : List services.ContainerEndpoint) :
    ∀ live : Multiset services.ContainerEndpoint,
      liveFrom live (nes.map Callback.Added) =
          (nes : Multiset services.ContainerEndpoint) + live ∧
        removalsLive live (nes.map Callback.Added) := by
  induction nes with
  | nil =>
    intro live
    simp [liveFrom, removalsLive]
  | cons e nes ih =>
    intro live
    simp only [List.map_cons, liveFrom, removalsLive]
    refine ⟨?_, (ih _).2⟩
    rw [(ih _).1, Multiset.add_cons, ← Multiset.cons_coe, Multiset.cons_add]

/-- The callbacks of one call turn the recorded old endpoints into the new ones
at the consumer, and remove live endpoints only. -/
theorem liveFrom_notify (oldEndpoints newEndpoints : Option (List services.ContainerEndpoint))
    (rest : Multiset services.ContainerEndpoint) :
    liveFrom (((oldEndpoints.getD [] : List services.ContainerEndpoint) :
          Multiset services.ContainerEndpoint) + rest) (notify oldEndpoints newEndpoints) =
        ((newEndpoints.getD [] : List services.ContainerEndpoint) :
          Multiset services.ContainerEndpoint) + rest ∧
      removalsLive (((oldEndpoints.getD [] : List services.ContainerEndpoint) :
          Multiset services.ContainerEndpoint) + rest) (notify oldEndpoints newEndpoints) := by
  by_cases heq : newEndpoints = oldEndpoints
  · subst heq
    rw [notify_self]
    exact ⟨rfl, trivial⟩
  · rw [notify_of_ne _ _ heq, liveFrom_append, removalsLive_append,
      (liveFrom_removed _ rest).1]
    exact ⟨(liveFrom_added _ rest).1, (liveFrom_removed _ rest).2, (liveFrom_added _ rest).2⟩

/-- One admissible call keeps the consumer consistent with the state: its
callbacks turn the endpoints recorded before the call into those recorded
after it, remove live endpoints only, and the keys of the state stay distinct. -/
theorem changeHandler_step_consistent
    (getConfigLabels : StringMap → List (contPort × labelConfig))
    (ord : RangeOrder) (docker : Docker) (old new : Option dtypes.ContainerJSON)
    (docker1 : Docker) (callbacks : List Callback)
    (hnodup : (docker.endpointsByContainerID.map (fun kv => kv.1)).Nodup)
    (hadm : admissibleCall docker old new = true)
    (h : changeHandler getConfigLabels ord docker old new = Result.ok (docker1, callbacks)) :
    liveFrom (recorded docker.endpointsByContainerID) callbacks =
        recorded docker1.endpointsByContainerID ∧
      removalsLive (recorded docker.endpointsByContainerID) callbacks ∧
      (docker1.endpointsByContainerID.map (fun kv => kv.1)).Nodup := by
  have hzero : ∀ r : Multiset services.ContainerEndpoint,
      ((([] : List services.ContainerEndpoint) : Multiset services.ContainerEndpoint)) + r = r :=
    fun r => by rw [Multiset.coe_nil, zero_add]
  cases new with
  | none =>
    rw [changeHandler_nil] at h
    injection h with h
    injection h with hd hc
    subst hd hc
    cases old with
    | none =>
      have key := liveFrom_notify none none (recorded docker.endpointsByContainerID)
      simp only [Option.getD_none, hzero] at key
      exact ⟨key.1, key.2, hnodup⟩
    | some o =>
      have key := liveFrom_notify (lookupEndpoints docker.endpointsByContainerID o.ID) none
        (recorded (deleteEndpoints docker.endpointsByContainerID o.ID))
      rw [← recorded_eq_lookup_add _ _ hnodup] at key
      simp only [Option.getD_none, hzero] at key
      exact ⟨key.1, key.2, keys_deleteEndpoints_nodup _ _ hnodup⟩
  | some n =>
    cases hes : endpointsForContainer getConfigLabels ord docker.config n with
    | panic msg =>
      rw [changeHandler_of_panic _ _ _ _ _ _ hes] at h
      cases h
    | ok es =>
      rw [changeHandler_of_ok _ _ _ _ _ _ hes] at h
      injection h with h
      injection h with hd hc
      subst hd hc
      cases old with
      | none =>
        have hlook : lookupEndpoints docker.endpointsByContainerID n.ID = none := by
          simpa [admissibleCall] using hadm
        have hdel : deleteEndpoints docker.endpointsByContainerID n.ID =
            docker.endpointsByContainerID :=
          filter_ne_eq_self _ _ (not_mem_keys_of_lookup_none _ _ hlook)
        have key := liveFrom_notify none (some es) (recorded docker.endpointsByContainerID)
        simp only [Option.getD_none, Option.getD_some, hzero] at key
        refine ⟨?_, key.2, keys_storeEndpoints_nodup _ _ _ hnodup⟩
        show _ = recorded (storeEndpoints docker.endpointsByContainerID n.ID es)
        rw [recorded_storeEndpoints, hdel]
        exact key.1
      | some o =>
        have hid : o.ID = n.ID := by simpa [admissibleCall] using hadm
        have key := liveFrom_notify (lookupEndpoints docker.endpointsByContainerID o.ID)
          (some es) (recorded (deleteEndpoints docker.endpointsByContainerID o.ID))
        rw [← recorded_eq_lookup_add _ _ hnodup] at key
        simp only [Option.getD_some] at key
        refine ⟨?_, key.2,
          keys_storeEndpoints_nodup _ _ _ (keys_deleteEndpoints_nodup _ _ hnodup)⟩
        show _ = recorded (storeEndpoints
          (deleteEndpoints docker.endpointsByContainerID o.ID) n.ID es)
        rw [recorded_storeEndpoints, ← hid, deleteEndpoints_deleteEndpoints]
        exact key.1

/-- A run of admissible calls from a state with distinct keys keeps the
consumer consistent with the state. -/
theorem runCalls_consistent
    (getConfigLabels : StringMap → List (contPort × labelConfig)) (calls : List Call) :
    ∀ (docker docker1 : Docker) (trace : List Callback),
      (docker.endpointsByContainerID.map (fun kv => kv.1)).Nodup →
      admissibleCalls getConfigLabels docker calls = true →
      runCalls getConfigLabels docker calls = Result.ok (docker1, trace) →
      liveFrom (recorded docker.endpointsByContainerID) trace =
          recorded docker1.endpointsByContainerID ∧
        removalsLive (recorded docker.endpointsByContainerID) trace := by
  induction calls with
  | nil =>
    intro docker docker1 trace _ _ hrun
    simp only [runCalls] at hrun
    injection hrun with hrun
    injection hrun with hd ht
    subst hd ht
    exact ⟨rfl, trivial⟩
  | cons c rest ih =>
    intro docker docker1 trace hnodup hadm hrun
    simp only [runCalls] at hrun
    simp only [admissibleCalls, Bool.and_eq_true] at hadm
    cases hstep : changeHandler getConfigLabels c.ord docker c.old c.new with
    | panic msg => rw [hstep] at hrun; cases hrun
    | ok r =>
      obtain ⟨d1, cbs⟩ := r
      rw [hstep] at hrun
      have hadm2 := hadm.2
      rw [hstep] at hadm2
      simp only [] at hrun hadm2
      cases hrest : runCalls getConfigLabels d1 rest with
      | panic msg => rw [hrest] at hrun; cases hrun
      | ok r2 =>
        obtain ⟨d2, cbs2⟩ := r2
        rw [hrest] at hrun
        simp only [] at hrun
        injection hrun with hrun
        injection hrun with hd ht
        subst hd ht
        obtain ⟨hlive, hvalid, hnodup1⟩ := changeHandler_step_consistent getConfigLabels c.ord
          docker c.old c.new d1 cbs hnodup hadm.1 hstep
        obtain ⟨hlive2, hvalid2⟩ := ih d1 d2 cbs2 hnodup1 hadm2 hrest
        rw [liveFrom_append, removalsLive_append, hlive]
        exact ⟨hlive2, hvalid, hvalid2⟩

/-- The calls of a run that returns also return when the run stops after any
number of them, and they stay admissible. -/
theorem runCalls_take
    (getConfigLabels : StringMap → List (contPort × labelConfig)) (calls : List Call) :
    ∀ (docker : Docker) (k : Nat),
      admissibleCalls getConfigLabels docker calls = true →
      (∃ r, runCalls getConfigLabels docker calls = Result.ok r) →
      admissibleCalls getConfigLabels docker (calls.take k) = true ∧
        ∃ r, runCalls getConfigLabels docker (calls.take k) = Result.ok r := by
  induction calls with
  | nil =>
    intro docker k hadm hrun
    rw [List.take_nil]
    exact ⟨hadm, hrun⟩
  | cons c rest ih =>
    intro docker k hadm hrun
    cases k with
    | zero => exact ⟨rfl, _, rfl⟩
    | succ k =>
      obtain ⟨r, hrun⟩ := hrun
      simp only [runCalls] at hrun
      simp only [admissibleCalls, Bool.and_eq_true] at hadm
      simp only [List.take_succ_cons, admissibleCalls, Bool.and_eq_true, runCalls]
      cases hstep : changeHandler getConfigLabels c.ord docker c.old c.new with
      | panic msg => rw [hstep] at hrun; cases hrun
      | ok r1 =>
        obtain ⟨d1, cbs⟩ := r1
        rw [hstep] at hrun
        have hadm2 := hadm.2
        rw [hstep] at hadm2
        simp only [] at hrun hadm2
        cases hrest : runCalls getConfigLabels d1 rest with
        | panic msg => rw [hrest] at hrun; cases hrun
        | ok r2 =>
          obtain ⟨hadmk, rk, hrk⟩ := ih d1 k hadm2 ⟨r2, hrest⟩
          refine ⟨⟨hadm.1, hadmk⟩, ?_⟩
          simp only [hrk]
          exact ⟨_, rfl⟩

/-- C13. Consumer/state consistency: over a sequence of calls of
`changeHandler` from the empty state, each update keeping the container id and
each start being for an id that is not recorded, after every call the
endpoints for which `Added` has been invoked and `Removed` has not are, as a
multiset, the endpoints recorded in `endpointsByContainerID`; and every
`Removed` is for an endpoint that is live when it is invoked. -/
theorem consumer_state_consistency
    (getConfigLabels : StringMap → List (contPort × labelConfig))
    (config : Config) (calls : List Call) (docker1 : Docker) (trace : List Callback)
    (hadm : admissibleCalls getConfigLabels
      { config := config, endpointsByContainerID := [] } calls = true)
    (hrun : runCalls getConfigLabels
      { config := config, endpointsByContainerID := [] } calls = Result.ok (docker1, trace)) :
    ∀ k, ∃ dockerK traceK,
      runCalls getConfigLabels { config := config, endpointsByContainerID := [] }
          (calls.take k) = Result.ok (dockerK, traceK) ∧
        liveFrom 0 traceK = recorded dockerK.endpointsByContainerID ∧
        removalsLive 0 traceK := by
  intro k
  obtain ⟨hadmk, ⟨dockerK, traceK⟩, hrunk⟩ :=
    runCalls_take getConfigLabels calls _ k hadm ⟨_, hrun⟩
  have hcons := runCalls_consistent getConfigLabels (calls.take k)
    { config := config, endpointsByContainerID := [] } dockerK traceK List.nodup_nil hadmk hrunk
  exact ⟨dockerK, traceK, hrunk, hcons⟩

/-- Witness of C13: the life of `web`, looked at after its update. -/
theorem consumer_state_consistency_witness :
    admissibleCalls noLabels { config := defaultConfig, endpointsByContainerID := [] } webLife
        = true ∧
      runCalls noLabels { config := defaultConfig, endpointsByContainerID := [] } webLife =
        Result.ok ({ config := defaultConfig, endpointsByContainerID := [] },
          [Callback.Added web80, Callback.Added web81, Callback.Removed web80,
            Callback.Removed web81, Callback.Added web80, Callback.Removed web80]) ∧
      ∃ dockerK traceK,
        runCalls noLabels { config := defaultConfig, endpointsByContainerID := [] }
            (webLife.take 2) = Result.ok (dockerK, traceK) ∧
          liveFrom 0 traceK = recorded dockerK.endpointsByContainerID ∧
          removalsLive 0 traceK :=
  ⟨by decide, by decide,
    consumer_state_consistency noLabels defaultConfig webLife
      { config := defaultConfig, endpointsByContainerID := [] }
      [Callback.Added web80, Callback.Added web81, Callback.Removed web80,
        Callback.Removed web81, Callback.Added web80, Callback.Removed web80]
      (by decide) (by decide) 2⟩

end docker
/-! ## Completion of `changeHandler` on snapshots with pointers -/

namespace docker

theorem deref_some {α : Type} (a : α) : deref (some a) = Result.ok a := rfl

theorem sliceTo_ok_iff (s : String) (n : Nat) : (∃ r, sliceTo s n = Result.ok r) ↔ n ≤ s.length := by
  unfold sliceTo
  by_cases h : n ≤ s.length
  · simp [h]
  · simp [h]

theorem orchDimsPtr_of_config (ord : RangeOrderPtr) (config : Config)
    (cont : dtypes.ContainerJSONPtr) (contConfig : dtypes.ContainerConfig)
    (hc : cont.Config = some contConfig) :
    orchDimsPtr ord config cont =
      Result.ok (orchDimsLoop contConfig.Labels (ord.dims config.LabelsToDimensions) []) := by
  unfold orchDimsPtr
  rw [hc]
  cases ord.dims config.LabelsToDimensions with
  | nil => rfl
  | cons entry rest => rfl

theorem hostPtr_returns_iff (ord : RangeOrderPtr) (config : Config)
    (cont : dtypes.ContainerJSONPtr) (contConfig : dtypes.ContainerConfig)
    (networkSettings : dtypes.NetworkSettingsPtr)
    (hc : cont.Config = some contConfig) (hn : cont.NetworkSettings = some networkSettings) :
    (∃ r, hostPtr ord config cont = Result.ok r) ↔
      ((config.UseHostnameIfPresent = true ∧ contConfig.Hostname ≠ "") ∨
        ∀ n ∈ (ord.networksPtr networkSettings.Networks).head?, n.2 ≠ none) := by
  cases hv : ord.networksPtr networkSettings.Networks with
  | nil =>
    by_cases hu : config.UseHostnameIfPresent = true <;>
      by_cases hh : contConfig.Hostname = "" <;>
      simp [hostPtr, deref, hc, hn, hv, hu, hh]
  | cons n rest =>
    obtain ⟨name, entry⟩ := n
    cases entry with
    | none =>
      by_cases hu : config.UseHostnameIfPresent = true <;>
        by_cases hh : contConfig.Hostname = "" <;>
        simp [hostPtr, deref, hc, hn, hv, hu, hh]
    | some e =>
      by_cases hu : config.UseHostnameIfPresent = true <;>
        by_cases hh : contConfig.Hostname = "" <;>
        simp [hostPtr, deref, hc, hn, hv, hu, hh]

/-- With its base and `Config` present, `endpointForPort` returns on a
snapshot with pointers exactly when `NetworkSettings` is present and the port
is omitted by the exclusion policy, or the id has at least 12 characters and
the host can be read: the hostname is used, or the first visited entry of
`Networks`, if there is one, is not nil. -/
theorem endpointForPortPtr_returns_iff (ord : RangeOrderPtr) (config : Config)
    (portObj : contPort) (cont : dtypes.ContainerJSONPtr) (sc : services.Container)
    (base : dtypes.ContainerJSONBase) (contConfig : dtypes.ContainerConfig)
    (hb : cont.ContainerJSONBase = some base) (hc : cont.Config = some contConfig) :
    (∃ r, endpointForPortPtr ord config portObj cont sc = Result.ok r) ↔
      ∃ networkSettings, cont.NetworkSettings = some networkSettings ∧
        ((config.IgnoreNonHostBindings = true ∧
            dockercommon.hostBinding networkSettings.Ports portObj.Port = (0, "")) ∨
          (12 ≤ base.ID.length ∧
            ((config.UseHostnameIfPresent = true ∧ contConfig.Hostname ≠ "") ∨
              ∀ n ∈ (ord.networksPtr networkSettings.Networks).head?, n.2 ≠ none))) := by
  cases hn : cont.NetworkSettings with
  | none =>
    simp [endpointForPortPtr, dockercommon.FindHostMappedPortPtr, deref, hn]
  | some ns =>
    by_cases hom : config.IgnoreNonHostBindings = true ∧
        (dockercommon.hostBinding ns.Ports portObj.Port).1 = 0 ∧
        (dockercommon.hostBinding ns.Ports portObj.Port).2 = ""
    · have hom2 : dockercommon.hostBinding ns.Ports portObj.Port = (0, "") :=
        Prod.ext hom.2.1 hom.2.2
      simp [endpointForPortPtr, dockercommon.FindHostMappedPortPtr, deref, hn, hom, hom2]
    · have hom2 : ¬ (config.IgnoreNonHostBindings = true ∧
          dockercommon.hostBinding ns.Ports portObj.Port = (0, "")) := by
        rw [Prod.ext_iff]
        exact hom
      by_cases hlen : 12 ≤ base.ID.length
      · have hhost := hostPtr_returns_iff ord config cont contConfig ns hc hn
        have hright : (∃ networkSettings, some ns = some networkSettings ∧
            ((config.IgnoreNonHostBindings = true ∧
                dockercommon.hostBinding networkSettings.Ports portObj.Port = (0, "")) ∨
              (12 ≤ base.ID.length ∧
                ((config.UseHostnameIfPresent = true ∧ contConfig.Hostname ≠ "") ∨
                  ∀ n ∈ (ord.networksPtr networkSettings.Networks).head?, n.2 ≠ none)))) ↔
            ((config.UseHostnameIfPresent = true ∧ contConfig.Hostname ≠ "") ∨
              ∀ n ∈ (ord.networksPtr ns.Networks).head?, n.2 ≠ none) := by
          constructor
          · rintro ⟨ns2, h2, h3⟩
            injection h2 with h2
            subst h2
            rcases h3 with h3 | h3
            · exact absurd h3 hom2
            · exact h3.2
          · intro h
            exact ⟨ns, rfl, Or.inr ⟨hlen, h⟩⟩
        rw [hright, ← hhost]
        unfold endpointForPortPtr
        simp only [dockercommon.FindHostMappedPortPtr, deref, hn, hb, hom, if_false,
          sliceTo_ok hlen, orchDimsPtr_of_config ord config cont contConfig hc]
        cases hostPtr ord config cont with
        | panic msg => simp
        | ok host =>
          refine ⟨fun _ => ⟨host, rfl⟩, fun _ => ?_⟩
          simp only []
          by_cases hbind : config.UseHostBindings = true ∧
              (dockercommon.hostBinding ns.Ports portObj.Port).1 ≠ 0 ∧
              (dockercommon.hostBinding ns.Ports portObj.Port).2 ≠ ""
          · rw [if_pos hbind]
            exact ⟨_, rfl⟩
          · rw [if_neg hbind]
            exact ⟨_, rfl⟩
      · simp [endpointForPortPtr, dockercommon.FindHostMappedPortPtr, deref, hn, hb, hom,
          hom2, sliceTo_panic hlen, hlen]

theorem endpointsLoopPtr_returns_iff (ord : RangeOrderPtr) (config : Config)
    (lc : List (contPort × labelConfig)) (cont : dtypes.ContainerJSONPtr)
    (sc : services.Container) (ps : List contPort) :
    ∀ acc : List services.ContainerEndpoint,
      (∃ es, endpointsLoopPtr ord config lc cont sc ps acc = Result.ok es) ↔
        ∀ p ∈ ps, ∃ r, endpointForPortPtr ord config p cont sc = Result.ok r := by
  induction ps with
  | nil =>
    intro acc
    simp [endpointsLoopPtr]
  | cons p rest ih =>
    intro acc
    unfold endpointsLoopPtr
    cases hp : endpointForPortPtr ord config p cont sc with
    | panic msg => simp [hp]
    | ok r =>
      cases r with
      | none => simp [hp, ih]
      | some e => simp [hp, ih]

/-- The method `endpointsForContainer` returns on a snapshot with pointers
exactly when the base and `State` are present and, for a running, unpaused
container, `Config` is present and `endpointForPort` returns for every
candidate port. -/
theorem endpointsForContainerPtr_returns_iff
    (getConfigLabels : StringMap → List (contPort × labelConfig))
    (ord : RangeOrderPtr) (config : Config) (cont : dtypes.ContainerJSONPtr) :
    (∃ es, endpointsForContainerPtr getConfigLabels ord config cont = Result.ok es) ↔
      ∃ base state, cont.ContainerJSONBase = some base ∧ base.State = some state ∧
        (state.Running = true ∧ state.Paused = false →
          ∃ contConfig, cont.Config = some contConfig ∧
            ∀ p ∈ knownPortsOf (getConfigLabels contConfig.Labels) contConfig.ExposedPorts,
              ∃ networkSettings, cont.NetworkSettings = some networkSettings ∧
                ((config.IgnoreNonHostBindings = true ∧
                    dockercommon.hostBinding networkSettings.Ports p.Port = (0, "")) ∨
                  (12 ≤ base.ID.length ∧
                    ((config.UseHostnameIfPresent = true ∧ contConfig.Hostname ≠ "") ∨
                      ∀ n ∈ (ord.networksPtr networkSettings.Networks).head?,
                        n.2 ≠ none)))) := by
  unfold endpointsForContainerPtr
  cases hb : cont.ContainerJSONBase with
  | none => simp [deref]
  | some base =>
    cases hs : base.State with
    | none => simp [deref, hs]
    | some state =>
      by_cases hrun : state.Running = true ∧ state.Paused = false
      · cases hc : cont.Config with
        | none => simp [deref, hs, hrun]
        | some contConfig =>
          simp only [deref, hs, hrun, and_self, if_true, endpointsLoopPtr_returns_iff,
            Option.some.injEq, exists_and_left, exists_eq_left', true_implies]
          have hperm := ord.ports_perm
            (knownPortsOf (getConfigLabels contConfig.Labels) contConfig.ExposedPorts)
          constructor
          · intro h p hp
            exact (endpointForPortPtr_returns_iff ord config p cont _ base contConfig hb hc).1
              (h p (hperm.symm.subset hp))
          · intro h p hp
            exact (endpointForPortPtr_returns_iff ord config p cont _ base contConfig hb hc).2
              (h p (hperm.subset hp))
      · simp only [deref, hs, hrun, if_false, Option.some.injEq, exists_and_left,
          exists_eq_left', false_implies]
        exact ⟨fun _ => trivial, fun _ => ⟨[], rfl⟩⟩

/-! ### Snapshots whose pointers are all present -/

theorem hostPtr_toPtr (ord : RangeOrderPtr) (config : Config) (cont : dtypes.ContainerJSON)
    (hnet : ∀ l, ord.networksPtr (l.map (fun kv => (kv.1, some kv.2))) =
      (ord.networks l).map (fun kv => (kv.1, some kv.2))) :
    hostPtr ord config cont.toPtr =
      Result.ok
        (if config.UseHostnameIfPresent = true ∧ cont.Config.Hostname ≠ "" then
          some cont.Config.Hostname
        else
          match ord.networks cont.NetworkSettings.Networks with
          | n :: _ => some n.2.IPAddress
          | [] => none) := by
  unfold hostPtr dtypes.ContainerJSON.toPtr
  simp only [deref, hnet]
  cases ord.networks cont.NetworkSettings.Networks with
  | nil =>
    by_cases hu : config.UseHostnameIfPresent = true <;>
      by_cases hh : cont.Config.Hostname = "" <;> simp [hu, hh]
  | cons n rest =>
    by_cases hu : config.UseHostnameIfPresent = true <;>
      by_cases hh : cont.Config.Hostname = "" <;> simp [hu, hh]

theorem endpointForPortPtr_toPtr (ord : RangeOrderPtr) (config : Config) (portObj : contPort)
    (cont : dtypes.ContainerJSON) (sc : services.Container)
    (hnet : ∀ l, ord.networksPtr (l.map (fun kv => (kv.1, some kv.2))) =
      (ord.networks l).map (fun kv => (kv.1, some kv.2))) :
    endpointForPortPtr ord config portObj cont.toPtr sc =
      endpointForPort ord.toRangeOrder config portObj cont sc := by
  have hmap : dockercommon.FindHostMappedPortPtr cont.toPtr portObj.Port =
      Result.ok (dockercommon.FindHostMappedPort cont portObj.Port) := rfl
  have hdims := orchDimsPtr_of_config ord config cont.toPtr cont.Config rfl
  unfold endpointForPortPtr endpointForPort
  simp only [hmap, hdims, hostPtr_toPtr ord config cont hnet]
  by_cases hom : config.IgnoreNonHostBindings = true ∧
      (dockercommon.FindHostMappedPort cont portObj.Port).1 = 0 ∧
      (dockercommon.FindHostMappedPort cont portObj.Port).2 = ""
  · simp only [hom, and_self, if_true]
  · simp only [hom, if_false]
    have hbase : deref cont.toPtr.ContainerJSONBase =
        Result.ok { ID := cont.ID, Name := cont.Name, State := some cont.State } := rfl
    simp only [hbase]
    cases sliceTo cont.ID 12 with
    | panic msg => rfl
    | ok id12 =>
      simp only []
      by_cases hu : config.UseHostnameIfPresent = true ∧ cont.Config.Hostname ≠ ""
      · simp only [if_pos hu]
      · simp only [if_neg hu]
        cases ord.networks cont.NetworkSettings.Networks with
        | nil => rfl
        | cons n rest => rfl

theorem endpointsLoopPtr_toPtr (ord : RangeOrderPtr) (config : Config)
    (lc : List (contPort × labelConfig)) (cont : dtypes.ContainerJSON)
    (sc : services.Container)
    (hnet : ∀ l, ord.networksPtr (l.map (fun kv => (kv.1, some kv.2))) =
      (ord.networks l).map (fun kv => (kv.1, some kv.2)))
    (ps : List contPort) :
    ∀ acc, endpointsLoopPtr ord config lc cont.toPtr sc ps acc =
      endpointsLoop ord.toRangeOrder config lc cont sc ps acc := by
  induction ps with
  | nil => intro acc; rfl
  | cons p rest ih =>
    intro acc
    unfold endpointsLoopPtr endpointsLoop
    rw [endpointForPortPtr_toPtr ord config p cont sc hnet]
    cases endpointForPort ord.toRangeOrder config p cont sc with
    | panic msg => rfl
    | ok r =>
      cases r with
      | none => exact ih acc
      | some e => exact ih _

theorem endpointsForContainerPtr_toPtr
    (getConfigLabels : StringMap → List (contPort × labelConfig))
    (ord : RangeOrderPtr) (config : Config) (cont : dtypes.ContainerJSON)
    (hnet : ∀ l, ord.networksPtr (l.map (fun kv => (kv.1, some kv.2))) =
      (ord.networks l).map (fun kv => (kv.1, some kv.2))) :
    endpointsForContainerPtr getConfigLabels ord config cont.toPtr =
      endpointsForContainer getConfigLabels ord.toRangeOrder config cont := by
  unfold endpointsForContainerPtr endpointsForContainer
  have hbase : deref cont.toPtr.ContainerJSONBase =
      Result.ok { ID := cont.ID, Name := cont.Name, State := some cont.State } := rfl
  have hconf : deref cont.toPtr.Config = Result.ok cont.Config := rfl
  simp only [hbase, hconf, deref_some]
  by_cases hrun : cont.State.Running = true ∧ cont.State.Paused = false
  · simp only [if_pos hrun]
    exact endpointsLoopPtr_toPtr ord config _ cont _ hnet _ _
  · simp only [if_neg hrun]

/-- On snapshots whose pointers are all present, `changeHandler` on pointers is
`changeHandler` on the followed snapshots. -/
theorem changeHandlerPtr_toPtr
    (getConfigLabels : StringMap → List (contPort × labelConfig))
    (ord : RangeOrderPtr) (docker : Docker) (old new : Option dtypes.ContainerJSON)
    (hnet : ∀ l, ord.networksPtr (l.map (fun kv => (kv.1, some kv.2))) =
      (ord.networks l).map (fun kv => (kv.1, some kv.2))) :
    changeHandlerPtr getConfigLabels ord docker (old.map dtypes.ContainerJSON.toPtr)
        (new.map dtypes.ContainerJSON.toPtr) =
      changeHandler getConfigLabels ord.toRangeOrder docker old new := by
  unfold changeHandlerPtr changeHandler
  cases old with
  | none =>
    cases new with
    | none => rfl
    | some n =>
      simp only [Option.map_some', Option.map_none',
        endpointsForContainerPtr_toPtr getConfigLabels ord docker.config n hnet]
      cases endpointsForContainer getConfigLabels ord.toRangeOrder docker.config n with
      | panic msg => rfl
      | ok es => rfl
  | some o =>
    cases new with
    | none => rfl
    | some n =>
      simp only [Option.map_some',
        endpointsForContainerPtr_toPtr getConfigLabels ord docker.config n hnet]
      cases endpointsForContainer getConfigLabels ord.toRangeOrder docker.config n with
      | panic msg => rfl
      | ok es => rfl

/-! ### Completion of the handler -/

/-- The method `changeHandler` returns on snapshots with pointers exactly when
the base of `old` is present and `endpointsForContainer` returns for `new`,
spelled out on the pointers of `new`. -/
theorem changeHandlerPtr_returns_iff
    (getConfigLabels : StringMap → List (contPort × labelConfig))
    (ord : RangeOrderPtr) (docker : Docker) (old new : Option dtypes.ContainerJSONPtr) :
    (∃ docker1 callbacks,
        changeHandlerPtr getConfigLabels ord docker old new = Result.ok (docker1, callbacks)) ↔
      ((∀ o, old = some o → ∃ base, o.ContainerJSONBase = some base) ∧
        ∀ n, new = some n →
          ∃ base state, n.ContainerJSONBase = some base ∧ base.State = some state ∧
            (state.Running = true ∧ state.Paused = false →
              ∃ contConfig, n.Config = some contConfig ∧
                ∀ p ∈ knownPortsOf (getConfigLabels contConfig.Labels) contConfig.ExposedPorts,
                  ∃ networkSettings, n.NetworkSettings = some networkSettings ∧
                    ((docker.config.IgnoreNonHostBindings = true ∧
                        dockercommon.hostBinding networkSettings.Ports p.Port = (0, "")) ∨
                      (12 ≤ base.ID.length ∧
                        ((docker.config.UseHostnameIfPresent = true ∧
                            contConfig.Hostname ≠ "") ∨
                          ∀ e ∈ (ord.networksPtr networkSettings.Networks).head?,
                            e.2 ≠ none))))) := by
  have hiff := fun n : dtypes.ContainerJSONPtr =>
    endpointsForContainerPtr_returns_iff getConfigLabels ord docker.config n
  have hnone : ∀ P : dtypes.ContainerJSONPtr → Prop,
      ∀ n, (none : Option dtypes.ContainerJSONPtr) = some n → P n := by
    intro P n hn
    cases hn
  unfold changeHandlerPtr
  cases old with
  | none =>
    cases new with
    | none => exact ⟨fun _ => ⟨hnone _, hnone _⟩, fun _ => ⟨_, _, rfl⟩⟩
    | some n =>
      simp only []
      cases hes : endpointsForContainerPtr getConfigLabels ord docker.config n with
      | panic msg =>
        refine ⟨?_, fun h => ?_⟩
        · rintro ⟨_, _, h⟩
          cases h
        · obtain ⟨es, h⟩ := (hiff n).2 (h.2 n rfl)
          rw [hes] at h
          cases h
      | ok es =>
        have hret := (hiff n).1 ⟨es, hes⟩
        obtain ⟨base, _, hb, _⟩ := hret
        refine ⟨fun _ => ⟨hnone _, fun m hm => ?_⟩, fun _ => ?_⟩
        · injection hm with hm
          subst hm
          exact (hiff n).1 ⟨es, hes⟩
        · simp only [hb, deref_some]
          exact ⟨_, _, rfl⟩
  | some o =>
    simp only []
    cases hob : o.ContainerJSONBase with
    | none =>
      simp only [deref]
      refine ⟨?_, ?_⟩
      · rintro ⟨_, _, h⟩
        cases h
      · rintro ⟨h, _⟩
        obtain ⟨base, hbase⟩ := h o rfl
        rw [hob] at hbase
        cases hbase
    | some obase =>
      have hold : ∀ o2, some o = some o2 → ∃ base, o2.ContainerJSONBase = some base := by
        intro o2 ho2
        injection ho2 with ho2
        subst ho2
        exact ⟨obase, hob⟩
      simp only [deref_some]
      cases new with
      | none => exact ⟨fun _ => ⟨hold, hnone _⟩, fun _ => ⟨_, _, rfl⟩⟩
      | some n =>
        simp only []
        cases hes : endpointsForContainerPtr getConfigLabels ord docker.config n with
        | panic msg =>
          refine ⟨?_, fun h => ?_⟩
          · rintro ⟨_, _, h⟩
            cases h
          · obtain ⟨es, h⟩ := (hiff n).2 (h.2 n rfl)
            rw [hes] at h
            cases h
        | ok es =>
          have hret := (hiff n).1 ⟨es, hes⟩
          obtain ⟨base, _, hb, _⟩ := hret
          refine ⟨fun _ => ⟨hold, fun m hm => ?_⟩, fun _ => ?_⟩
          · injection hm with hm
            subst hm
            exact (hiff n).1 ⟨es, hes⟩
          · simp only [hb, deref_some]
            exact ⟨_, _, rfl⟩

theorem mem_knownPortsOf (lc : List (contPort × labelConfig)) (exposedPorts : List nat.Port)
    (p : contPort) :
    p ∈ knownPortsOf lc exposedPorts ↔
      ((∃ labelConf, (p, labelConf) ∈ lc) ∨
        ∃ k ∈ exposedPorts, p = { Port := k, Name := "" }) := by
  unfold knownPortsOf
  rw [List.mem_dedup, List.mem_append, List.mem_map, List.mem_map]
  constructor
  · rintro (⟨⟨q, c⟩, hq, rfl⟩ | ⟨k, hk, rfl⟩)
    · exact Or.inl ⟨c, hq⟩
    · exact Or.inr ⟨k, hk, rfl⟩
  · rintro (⟨c, hc⟩ | ⟨k, hk, rfl⟩)
    · exact Or.inl ⟨(p, c), hc, rfl⟩
    · exact Or.inr ⟨k, hk, rfl⟩

/-! ### The claim -/

/-- C9, amended. For every state and every transition `(old, new)`,
`changeHandler` completes normally exactly when the base of `old`, if `old`
is not nil, is present, and, if `new` is not nil, its base and `State` are
present and either the container is not running or is paused, or `Config` is
present and for every candidate port (an identity with a label configuration,
or an exposed port as an unnamed identity) `NetworkSettings` is present and
the port is omitted by the exclusion policy, or the id has at least 12
characters and the host can be read (the hostname is used, or the first
visited entry of `Networks`, if any, is not nil). A port that the exclusion
policy omits puts no other condition on the call: it never aborts the
recomputation of the other ports. -/
theorem changeHandlerPtr_completes_iff
    (getConfigLabels : StringMap → List (contPort × labelConfig))
    (ord : RangeOrderPtr) (docker : Docker) (old new : Option dtypes.ContainerJSONPtr) :
    (∃ docker1 callbacks,
        changeHandlerPtr getConfigLabels ord docker old new = Result.ok (docker1, callbacks)) ↔
      ((∀ o, old = some o → ∃ base, o.ContainerJSONBase = some base) ∧
        ∀ n, new = some n →
          ∃ base state, n.ContainerJSONBase = some base ∧ base.State = some state ∧
            (state.Running = true ∧ state.Paused = false →
              ∃ contConfig, n.Config = some contConfig ∧
                ∀ p : contPort,
                  ((∃ labelConf, (p, labelConf) ∈ getConfigLabels contConfig.Labels) ∨
                    ∃ k ∈ contConfig.ExposedPorts, p = { Port := k, Name := "" }) →
                  ∃ networkSettings, n.NetworkSettings = some networkSettings ∧
                    ((docker.config.IgnoreNonHostBindings = true ∧
                        dockercommon.FindHostMappedPortPtr n p.Port = Result.ok (0, "")) ∨
                      (12 ≤ base.ID.length ∧
                        ((docker.config.UseHostnameIfPresent = true ∧
                            contConfig.Hostname ≠ "") ∨
                          ∀ e ∈ (ord.networksPtr networkSettings.Networks).head?,
                            e.2 ≠ none))))) := by
  rw [changeHandlerPtr_returns_iff]
  have hport : ∀ (n : dtypes.ContainerJSONPtr) (p : contPort)
      (networkSettings : dtypes.NetworkSettingsPtr),
      n.NetworkSettings = some networkSettings →
      (dockercommon.FindHostMappedPortPtr n p.Port = Result.ok (0, "") ↔
        dockercommon.hostBinding networkSettings.Ports p.Port = (0, "")) := by
    intro n p networkSettings hn
    unfold dockercommon.FindHostMappedPortPtr
    rw [hn, deref_some]
    simp only []
    exact ⟨fun h => by injection h, fun h => by rw [h]⟩
  refine and_congr Iff.rfl (forall_congr' fun n => imp_congr Iff.rfl ?_)
  refine exists_congr fun base => exists_congr fun state =>
    and_congr Iff.rfl (and_congr Iff.rfl (imp_congr Iff.rfl ?_))
  refine exists_congr fun contConfig => and_congr Iff.rfl ?_
  constructor
  · intro h p hp
    obtain ⟨networkSettings, hn, hcase⟩ := h p ((mem_knownPortsOf _ _ p).2 hp)
    refine ⟨networkSettings, hn, ?_⟩
    rcases hcase with hom | hok
    · exact Or.inl ⟨hom.1, (hport n p networkSettings hn).2 hom.2⟩
    · exact Or.inr hok
  · intro h p hp
    obtain ⟨networkSettings, hn, hcase⟩ := h p ((mem_knownPortsOf _ _ p).1 hp)
    refine ⟨networkSettings, hn, ?_⟩
    rcases hcase with hom | hok
    · exact Or.inl ⟨hom.1, (hport n p networkSettings hn).1 hom.2⟩
    · exact Or.inr hok

/-- Witness of C9, amended: a running container with a short id and a nil
network entry whose only port is not published starts under `hostConfig`: the
port is omitted and the call completes, recording no endpoint. -/
theorem changeHandlerPtr_completes_iff_witness :
    unpublishedShort.ContainerJSONBase =
        some { ID := "abc", Name := "job",
               State := some { Status := "running", Running := true, Paused := false } } ∧
      changeHandlerPtr noLabels RangeOrderPtr.inOrder
          { config := hostConfig, endpointsByContainerID := [] } none (some unpublishedShort) =
        Result.ok ({ config := hostConfig, endpointsByContainerID := [("abc", [])] }, []) ∧
      ∃ docker1 callbacks,
        changeHandlerPtr noLabels RangeOrderPtr.inOrder
            { config := hostConfig, endpointsByContainerID := [] } none
            (some unpublishedShort) = Result.ok (docker1, callbacks) :=
  ⟨rfl, by decide,
    (changeHandlerPtr_completes_iff noLabels RangeOrderPtr.inOrder
      { config := hostConfig, endpointsByContainerID := [] } none (some unpublishedShort)).2
      ⟨fun o ho => (by cases ho),
        fun n hn => (by
          injection hn with hn
          subst hn
          refine ⟨_, _, rfl, rfl, fun _ => ⟨_, rfl, fun p hp => ⟨_, rfl, Or.inl ?_⟩⟩⟩
          rcases hp with ⟨labelConf, hl⟩ | ⟨k, hk, rfl⟩
          · cases hl
          · have hk2 : k = ⟨6380, "tcp"⟩ := by simpa using hk
            subst hk2
            exact ⟨rfl, by decide⟩)⟩⟩

/-- A running container with a nil `State` starts: following `State` at line
232 panics and the panic leaves `changeHandler`. -/
theorem changeHandlerPtr_panics_on_nil_state :
    changeHandlerPtr noLabels RangeOrderPtr.inOrder
        { config := defaultConfig, endpointsByContainerID := [] } none (some webNilState) =
      Result.panic "invalid memory address or nil pointer dereference" := by
  decide

/-- A running container with ports and a nil `NetworkSettings` starts:
following `NetworkSettings` at line 278 panics. -/
theorem changeHandlerPtr_panics_on_nil_networkSettings :
    changeHandlerPtr noLabels RangeOrderPtr.inOrder
        { config := defaultConfig, endpointsByContainerID := [] } none
        (some webNilNetworkSettings) =
      Result.panic "invalid memory address or nil pointer dereference" := by
  decide

end docker
